import Mathlib

/-!
Verification development for the papergrid text-table rendering library
(the core of the tabled repository, src/papergrid/src/lib.rs).

The Rust code is shallowly embedded: Rust String becomes a list of
characters, Vec becomes List, HashMap becomes a function into Option,
and functions that can panic return Option (none models a panic).
Machine integers are modelled as Nat; the sites where Rust usize
arithmetic could underflow (and panic) are noted in comments and are
unreachable in the contexts exercised here.
-/

set_option maxRecDepth 10000

namespace Papergrid

/-- A Rust String / str, modelled at the character level. -/
abbrev Str := List Char

/-- An indent: a fill character together with a size (struct Indent). -/
structure Indent where
  fill : Char
  size : Nat
deriving DecidableEq, Repr

/-- Default Indent: space fill, size 0 (impl Default for Indent). -/
def Indent.default : Indent := ⟨' ', 0⟩

instance : Inhabited Indent := ⟨Indent.default⟩

/-- Cell padding, four indents (struct Padding). -/
structure Padding where
  top : Indent
  bottom : Indent
  left : Indent
  right : Indent
deriving DecidableEq, Repr

def Padding.default : Padding := ⟨Indent.default, Indent.default, Indent.default, Indent.default⟩

instance : Inhabited Padding := ⟨Padding.default⟩

/-- Grid margin, four indents (struct Margin). -/
structure Margin where
  top : Indent
  bottom : Indent
  left : Indent
  right : Indent
deriving DecidableEq, Repr

def Margin.default : Margin := ⟨Indent.default, Indent.default, Indent.default, Indent.default⟩

instance : Inhabited Margin := ⟨Margin.default⟩

/-- Horizontal alignment of a cell (enum AlignmentHorizontal). -/
inductive AlignmentHorizontal where
  | Center
  | Left
  | Right
deriving DecidableEq, Repr

/-- Vertical alignment of a cell (enum AlignmentVertical). -/
inductive AlignmentVertical where
  | Center
  | Top
  | Bottom
deriving DecidableEq, Repr

/-- Formatting flags of a cell (struct Formatting). -/
structure Formatting where
  horizontal_trim : Bool
  vertical_trim : Bool
  allow_lines_alignement : Bool
  tab_width : Nat
deriving DecidableEq, Repr

/-- The style of a cell (struct Style). -/
structure Style where
  span : Nat
  padding : Padding
  alignment_h : AlignmentHorizontal
  alignment_v : AlignmentVertical
  formatting : Formatting
deriving DecidableEq, Repr

/-- Default style (impl Default for Style): span 1, no padding,
Left/Top alignment, no trimming, tab width 4. -/
def Style.default : Style :=
  { span := 1
    padding := Padding.default
    alignment_h := AlignmentHorizontal.Left
    alignment_v := AlignmentVertical.Top
    formatting := { horizontal_trim := false, vertical_trim := false,
                    allow_lines_alignement := false, tab_width := 4 } }

instance : Inhabited Style := ⟨Style.default⟩

/-- The addressable style target (enum Entity). -/
inductive Entity where
  | Global
  | Column (column : Nat)
  | Row (row : Nat)
  | Cell (row : Nat) (column : Nat)
deriving DecidableEq, Repr

/-- An 8-field border description of one cell (struct Border). -/
structure Border where
  top : Option Char
  bottom : Option Char
  left : Option Char
  right : Option Char
  left_top_corner : Option Char
  right_top_corner : Option Char
  left_bottom_corner : Option Char
  right_bottom_corner : Option Char
deriving DecidableEq, Repr

def Border.default : Border := ⟨none, none, none, none, none, none, none, none⟩

instance : Inhabited Border := ⟨Border.default⟩

/-- DEFAULT_CELL_STYLE: the default ASCII cell border. -/
def DEFAULT_CELL_STYLE : Border :=
  { top := some '-', bottom := some '-', left := some '|', right := some '|',
    right_top_corner := some '+', left_bottom_corner := some '+',
    left_top_corner := some '+', right_bottom_corner := some '+' }

/-- One column segment of a horizontal or vertical boundary as used by the
renderer (struct BorderLine). -/
structure BorderLine where
  main : Option Char
  connector1 : Option Char
  connector2 : Option Char
deriving DecidableEq, Repr

def BorderLine.default : BorderLine := ⟨none, none, none⟩

instance : Inhabited BorderLine := ⟨BorderLine.default⟩

/-! ## Display width (string_width / real_string_width) -/

/-- Display width of a single character.  Modelled from the external
unicode-width crate used by papergrid: control characters count 0, a
selection of East-Asian wide and emoji ranges count 2, the rest count 1.
It is exact on the ASCII range, which is all the concrete computations
below exercise. -/
def char_display_width (c : Char) : Nat :=
  if c.val < 0x20 then 0
  else if c.val = 0x7F then 0
  else if (0x1100 ≤ c.val ∧ c.val ≤ 0x115F) ∨ (0x2E80 ≤ c.val ∧ c.val ≤ 0x303E) ∨
          (0x3041 ≤ c.val ∧ c.val ≤ 0x33FF) ∨ (0x3400 ≤ c.val ∧ c.val ≤ 0x4DBF) ∨
          (0x4E00 ≤ c.val ∧ c.val ≤ 0x9FFF) ∨ (0xAC00 ≤ c.val ∧ c.val ≤ 0xD7A3) ∨
          (0xF900 ≤ c.val ∧ c.val ≤ 0xFAFF) ∨ (0xFF00 ≤ c.val ∧ c.val ≤ 0xFF60) ∨
          (0x1F300 ≤ c.val ∧ c.val ≤ 0x1F64F) ∨ (0x1F900 ≤ c.val ∧ c.val ≤ 0x1F9FF) then 2
  else 1

/-- Display width of one line of text (no newlines inside). -/
def line_display_width (l : Str) : Nat :=
  l.foldl (fun a c => a + char_display_width c) 0

/-- Rust str::lines(): split at newline characters, the final line ending
being optional; an empty string yields no lines; a trailing carriage
return is stripped from each line. -/
def rust_lines (s : Str) : List Str :=
  if s.isEmpty then []
  else
    let parts := List.splitOn '\n' s
    let parts := if s.getLast? = some '\n' then parts.dropLast else parts
    parts.map (fun l => if l.getLast? = some '\r' then l.dropLast else l)

/-- string_width / real_string_width: maximum display width of the lines
of the text (0 for an empty text). -/
def string_width (s : Str) : Nat :=
  ((rust_lines s).map line_display_width).foldl Nat.max 0

/-! ## Span visibility (is_cell_visible / is_cell_overriden) -/

/-- is_cell_overriden: some earlier cell of the prefix spans past the end
of the prefix, i.e. covers the cell right after it. -/
def is_cell_overriden (styles : List Style) : Bool :=
  styles.enum.any fun p => decide (styles.length - p.1 < p.2.span)

/-- is_cell_visible: a cell is visible when its span is nonzero and no
earlier cell's span covers it. -/
def is_cell_visible (row_styles : List Style) (column : Nat) : Bool :=
  let is_span_zero := (row_styles.getD column default).span == 0
  if is_span_zero then false
  else ! is_cell_overriden (row_styles.take column)

/-- is_cell_in_scope: the cell's span does not extend past end_col. -/
def is_cell_in_scope (styles : List Style) (col end_col : Nat) : Bool :=
  decide (col + (styles.getD col default).span ≤ end_col)

/-- is_there_out_of_scope_cell: the first cell of the range is invisible,
or some visible cell of the range spans past its end. -/
def is_there_out_of_scope_cell (styles : List Style) (start_column end_column : Nat) : Bool :=
  let first_cell_is_invisible := ! is_cell_visible styles start_column
  let any_cell_out_of_scope :=
    ((List.range' start_column (end_column - start_column)).filter
      (fun col => is_cell_visible styles col)).any
      (fun col => ! is_cell_in_scope styles col end_column)
  first_cell_is_invisible || any_cell_out_of_scope

/-! ## Width resolution (columns_width and friends) -/

/-- cell_width: maximal display width of the cell's lines plus the
horizontal padding sizes. -/
def cell_width (cell : List Str) (style : Style) : Nat :=
  ((cell.map string_width).foldl Nat.max 0) + style.padding.left.size + style.padding.right.size

/-- row_width: total rendered width of a row over a column range; the sum
of the visible in-scope cell widths plus one unit per interior border
present. -/
def row_width (styles : List Style) (widths : List Nat) (borders : List BorderLine)
    (column_start column_end : Nat) : Nat :=
  let width :=
    (((List.range' column_start (column_end - column_start)).filter
        (fun i => is_cell_visible styles i)).filter
        (fun i => is_cell_in_scope styles i column_end)).foldl
      (fun acc i => acc + widths.getD i 0) 0
  let border_count :=
    if column_end - column_start = 0 then 0
    else
      ((((List.range' column_start (column_end - column_start)).filter
          (fun i => is_cell_visible styles i)).filter
          (fun i => is_cell_in_scope styles i column_end)).filter
        (fun i => if i = column_start then false else (borders.getD i default).connector1.isSome)).length
  width + border_count

/-- inc_cells_width: distribute inc units one at a time, cycling
left-to-right over the visible cells in the range. -/
def inc_cells_width (widths : List Nat) (styles : List Style)
    (start_range end_range inc : Nat) : List Nat :=
  let vs := (List.range' start_range (end_range - start_range)).filter
    (fun i => is_cell_visible styles i)
  if vs.isEmpty then widths
  else (List.range inc).foldl
    (fun w k =>
      let i := vs.getD (k % vs.length) 0
      w.set i (w.getD i 0 + 1)) widths

/-- Helper for a nested list: read entry (r, c) with a default. -/
def mat_get (m : List (List α)) (r c : Nat) (d : α) : α :=
  (m.getD r []).getD c d

/-- Helper for a nested list: apply f to row r. -/
def mat_update_row (m : List (List α)) (r : Nat) (f : List α → List α) : List (List α) :=
  m.set r (f (m.getD r []))

/-- adjust_range_width: find the row of maximal total width over the
range (on ties Rust max_by_key keeps the last), bring every other
in-scope row up to it by round-robin increments, then patch rows with
out-of-scope cells by copying widths from a row with the same span. -/
def adjust_range_width (widths : List (List Nat)) (styles : List (List Style))
    (borders : List (List BorderLine)) (count_rows start_column end_column : Nat) :
    List (List Nat) :=
  if count_rows = 0 then widths
  else
    let pairs := (List.range count_rows).map fun row =>
      (row, row_width (styles.getD row []) (widths.getD row []) (borders.getD row [])
          start_column end_column)
    let best := pairs.foldl (fun acc x => if acc.2 ≤ x.2 then x else acc) (0, 0)
    let max_row := best.1
    let max_width := best.2
    if max_width = 0 then widths
    else
      let widths := (List.range count_rows).foldl (fun w row =>
        if row ≠ max_row ∧
           ¬ is_there_out_of_scope_cell (styles.getD row []) start_column end_column = true then
          let rw := row_width (styles.getD row []) (w.getD row []) (borders.getD row [])
            start_column end_column
          let diff := max_width - rw
          mat_update_row w row (fun wr =>
            inc_cells_width wr (styles.getD row []) start_column end_column diff)
        else w) widths
      (List.range count_rows).foldl (fun w row =>
        if row ≠ max_row ∧
           is_there_out_of_scope_cell (styles.getD row []) start_column end_column = true then
          (List.range' start_column (end_column - start_column)).foldl (fun w col =>
            if is_cell_visible (styles.getD row []) col then
              let donor := ((List.range count_rows).filter (fun r =>
                  decide (r ≠ max_row) && decide (r ≠ row) &&
                  ! is_there_out_of_scope_cell (styles.getD r []) start_column end_column)).find?
                (fun r => (mat_get styles r col default).span == (mat_get styles row col default).span)
              match donor with
              | some r => mat_update_row w row (fun wr => wr.set col (mat_get w r col 0))
              | none => w
            else w) w
        else w) widths

/-- is_range_complete: all rows without out-of-scope cells agree on the
total rendered width of the range. -/
def is_range_complete (styles : List (List Style)) (widths : List (List Nat))
    (borders : List (List BorderLine)) (count_rows start_column end_column : Nat) : Bool :=
  let ws := ((List.range count_rows).filter (fun row =>
      ! is_there_out_of_scope_cell (styles.getD row []) start_column end_column)).map
    (fun row => row_width (styles.getD row []) (widths.getD row []) (borders.getD row [])
      start_column end_column)
  let result : Option (Nat × Bool) := ws.foldl (fun acc width =>
    match acc with
    | some (w, true) => if w ≠ width then some (0, false) else acc
    | none => some (width, true)
    | _ => acc) none
  match result with
  | some (_, true) => true
  | _ => false

/-- adjust_width: for one span value, adjust every start-column range
once, then re-check each of those ranges and re-adjust the incomplete
ones one more time. -/
def adjust_width (widths : List (List Nat)) (styles : List (List Style))
    (borders : List (List BorderLine)) (count_rows count_columns span : Nat) :
    List (List Nat) :=
  let ranges := (((List.range count_columns).map fun col => (col, col + span)).takeWhile
    fun p => decide (p.2 ≤ count_columns))
  let widths := ranges.foldl (fun w p =>
    adjust_range_width w styles borders count_rows p.1 p.2) widths
  ranges.foldl (fun w p =>
    if is_range_complete styles w borders count_rows p.1 p.2 then w
    else adjust_range_width w styles borders count_rows p.1 p.2) widths

/-- The distinct span values of the grid in ascending order with 0
removed; models the BTreeSet (which iterates in ascending order). -/
def sorted_spans (styles : List (List Style)) : List Nat :=
  let all := styles.foldl (fun acc row => row.foldl (fun acc st => acc ++ [st.span]) acc) []
  let bound := (all.foldl Nat.max 0) + 1
  (List.range bound).filter (fun k => decide (k ≠ 0) && all.contains k)

/-- columns_width: seed visible cells with their intrinsic content width,
then adjust for every distinct span value in ascending order. -/
def columns_width (cells : List (List (List Str))) (styles : List (List Style))
    (borders : List (List BorderLine)) (count_rows count_columns : Nat) :
    List (List Nat) :=
  let widths := (List.range count_rows).map fun row =>
    (List.range count_columns).map fun column =>
      if is_cell_visible (styles.getD row []) column then
        cell_width (mat_get cells row column []) (mat_get styles row column default)
      else 0
  (sorted_spans styles).foldl (fun w span =>
    adjust_width w styles borders count_rows count_columns span) widths

end Papergrid

namespace Papergrid

/-! ## Row heights (rows_height / cell_height) -/

/-- cell_height: number of content lines plus vertical padding sizes. -/
def cell_height (cell : List Str) (style : Style) : Nat :=
  cell.length + style.padding.top.size + style.padding.bottom.size

/-- rows_height: per row, the maximum of 1 (the default height, so that
an empty row still occupies a printed line) and the heights of the row's
cells. -/
def rows_height (cells : List (List (List Str))) (styles : List (List Style))
    (count_rows count_columns : Nat) : List Nat :=
  (List.range count_rows).map fun row_index =>
    (List.range count_columns).foldl (fun h column_index =>
      Nat.max h (cell_height (mat_get cells row_index column_index [])
        (mat_get styles row_index column_index default))) 1

/-! ## Claim C1: where does the corrective re-check run? -/

/-- Width resolution as the specification words it (for claim C1): first
the full pass over all distinct span values and all their ranges, and
only after that full pass a single corrective re-check of every range.
The code instead re-checks the ranges of each span value right after
that span value's pass. -/
def columns_width_spec_order (cells : List (List (List Str))) (styles : List (List Style))
    (borders : List (List BorderLine)) (count_rows count_columns : Nat) :
    List (List Nat) :=
  let widths := (List.range count_rows).map fun row =>
    (List.range count_columns).map fun column =>
      if is_cell_visible (styles.getD row []) column then
        cell_width (mat_get cells row column []) (mat_get styles row column default)
      else 0
  let all_ranges := (sorted_spans styles).flatMap (fun span =>
    (((List.range count_columns).map fun col => (col, col + span)).takeWhile
      fun p => decide (p.2 ≤ count_columns)))
  let w := all_ranges.foldl (fun w p =>
    adjust_range_width w styles borders count_rows p.1 p.2) widths
  all_ranges.foldl (fun w p =>
    if is_range_complete styles w borders count_rows p.1 p.2 then w
    else adjust_range_width w styles borders count_rows p.1 p.2) w

/-- A style differing from the default only in its span. -/
def span_style (sp : Nat) : Style := { Style.default with span := sp }

/-- One content line of the given text. -/
def mk_cell (s : String) : List Str := rust_lines s.toList

/-- A 4-row, 3-column span configuration: a plain row, a row merging
columns 0-1, a row merging columns 1-2, and a row merging all three.
The configuration is stable under fix_spans. -/
def exC1_styles : List (List Style) :=
  [[span_style 1, span_style 1, span_style 1],
   [span_style 2, span_style 0, span_style 1],
   [span_style 1, span_style 2, span_style 0],
   [span_style 3, span_style 0, span_style 0]]

/-- Cell contents giving the seed widths (1,1,1), (3,_,1), (1,3,_), (8,_,_). -/
def exC1_cells : List (List (List Str)) :=
  [[mk_cell "a", mk_cell "b", mk_cell "c"],
   [mk_cell "aaa", mk_cell "", mk_cell "d"],
   [mk_cell "e", mk_cell "fff", mk_cell ""],
   [mk_cell "12345678", mk_cell "", mk_cell ""]]

/-- Inner split lines with a vertical border at every column boundary. -/
def exC1_borders : List (List BorderLine) :=
  List.replicate 4 (List.replicate 3 ⟨none, some '|', some '|'⟩)

/-- C1, counterexample.  The claim says the corrective re-check runs
after the full pass over all distinct span values.  On this grid the
code (which re-checks within each span value's processing) computes
widths [[2,2,2],[5,0,2],[3,4,0],[8,0,0]], while the claimed ordering
computes [[3,2,2],[6,0,2],[3,5,0],[9,0,0]]: the span-3 pass
desynchronizes the already-re-checked span-1 range over column 0, and
the code never revisits it. -/
theorem c1_global_recheck_counterexample :
    columns_width exC1_cells exC1_styles exC1_borders 4 3 ≠
      columns_width_spec_order exC1_cells exC1_styles exC1_borders 4 3 := by
  decide

/-- C1, amended.  The corrective re-check runs per span value: after the
pass over all start-column ranges of one span value, each of that span's
ranges is re-checked and any incomplete one re-adjusted exactly once
more, before the next span value is processed.  It is a single
corrective pass, never iteration to a fixed point: on the concrete grid
above the final widths still contain an incomplete range. -/
theorem c1_corrective_recheck_per_span :
    (∀ cells styles borders count_rows count_columns,
      columns_width cells styles borders count_rows count_columns =
        (sorted_spans styles).foldl (fun w span =>
          let ranges := (((List.range count_columns).map fun col => (col, col + span)).takeWhile
            fun p => decide (p.2 ≤ count_columns))
          let after_pass := ranges.foldl (fun w p =>
            adjust_range_width w styles borders count_rows p.1 p.2) w
          ranges.foldl (fun w p =>
            if is_range_complete styles w borders count_rows p.1 p.2 then w
            else adjust_range_width w styles borders count_rows p.1 p.2) after_pass)
          ((List.range count_rows).map fun row =>
            (List.range count_columns).map fun column =>
              if is_cell_visible (styles.getD row []) column then
                cell_width (mat_get cells row column []) (mat_get styles row column default)
              else 0)) ∧
    is_range_complete exC1_styles (columns_width exC1_cells exC1_styles exC1_borders 4 3)
      exC1_borders 4 0 1 = false := by
  refine ⟨fun _ _ _ _ _ => rfl, by decide⟩

/-! ## Claim C4: the visibility rule -/

/-- Visibility flags of the first n columns of a row, computed exactly as
the specification words the rule (for claim C4): a cell is invisible when
its own span is 0, or some earlier VISIBLE cell at column i covers it
(span(i) > col - i). -/
def claim_visible_flags (styles : List Style) : Nat → List Bool
  | 0 => []
  | n + 1 =>
    let prev := claim_visible_flags styles n
    let covered := (List.range n).any fun i =>
      prev.getD i false && decide (n - i < (styles.getD i default).span)
    prev ++ [decide ((styles.getD n default).span ≠ 0) && ! covered]

/-- The visibility rule as the specification words it (for claim C4). -/
def claim_visible (styles : List Style) (col : Nat) : Bool :=
  (claim_visible_flags styles (col + 1)).getD col false

/-- A row of spans 2, 9, 0, 1.  Column 3 is invisible for the code: the
(itself invisible) cell at column 1 has span 9 > 2.  Under the claim's
rule only visible earlier cells count, the only visible earlier cell is
column 0 with span 2, and 2 is not greater than 3, so the claim calls
column 3 visible. -/
def exC4_styles : List Style :=
  [span_style 2, span_style 9, span_style 0, span_style 1]

/-- C4, counterexample: the code and the claimed rule disagree on the
visibility of column 3 in the row with spans 2, 9, 0, 1. -/
theorem c4_visibility_counterexample :
    is_cell_visible exC4_styles 3 = false ∧ claim_visible exC4_styles 3 = true := by
  decide

/-- is_cell_overriden holds exactly when some position of the list spans
past the end of the list. -/
theorem is_cell_overriden_iff (l : List Style) :
    is_cell_overriden l = true ↔
      ∃ i, i < l.length ∧ l.length - i < (l.getD i default).span := by
  unfold is_cell_overriden
  rw [List.any_eq_true]
  constructor
  · rintro ⟨⟨i, st⟩, hmem, hp⟩
    rw [List.mk_mem_enum_iff_getElem?] at hmem
    rw [List.getElem?_eq_some] at hmem
    obtain ⟨hi, hget⟩ := hmem
    refine ⟨i, hi, ?_⟩
    rw [List.getD_eq_getElem?_getD, List.getElem?_eq_getElem hi, hget]
    simpa using hp
  · rintro ⟨i, hi, hsp⟩
    refine ⟨(i, l.getD i default), ?_, by simpa using hsp⟩
    rw [List.mk_mem_enum_iff_getElem?, List.getElem?_eq_some]
    refine ⟨hi, ?_⟩
    rw [List.getD_eq_getElem?_getD, List.getElem?_eq_getElem hi]
    rfl

/-- C4, amended.  is_cell_visible(row, col) is false exactly when the
cell's own span is 0, or some earlier cell (visible or not) at column
i < col has span(i) > col - i; otherwise the cell is visible. -/
theorem c4_visibility_amended (styles : List Style) (col : Nat) (h : col < styles.length) :
    is_cell_visible styles col = true ↔
      ((styles.getD col default).span ≠ 0 ∧
        ∀ i, i < col → (styles.getD i default).span ≤ col - i) := by
  have hlen : (styles.take col).length = col := by
    rw [List.length_take]
    omega
  have hget : ∀ i, i < col → (styles.take col).getD i default = styles.getD i default := by
    intro i hi
    rw [List.getD_eq_getElem?_getD, List.getD_eq_getElem?_getD, List.getElem?_take, if_pos hi]
  have hov2 : is_cell_overriden (styles.take col) = true ↔
      ∃ i, i < col ∧ col - i < (styles.getD i default).span := by
    rw [is_cell_overriden_iff, hlen]
    constructor
    · rintro ⟨i, hi, hs⟩
      exact ⟨i, hi, by rwa [hget i hi] at hs⟩
    · rintro ⟨i, hi, hs⟩
      exact ⟨i, hi, by rwa [hget i hi]⟩
  have hmain : is_cell_visible styles col = true ↔
      ((styles.getD col default).span ≠ 0 ∧ is_cell_overriden (styles.take col) = false) := by
    simp only [is_cell_visible]
    by_cases hz : (styles.getD col default).span = 0
    · simp [hz]
    · simp [hz]
  rw [hmain]
  constructor
  · rintro ⟨h1, h2⟩
    refine ⟨h1, fun i hi => ?_⟩
    by_contra hlt
    push_neg at hlt
    have hcontr := hov2.mpr ⟨i, hi, hlt⟩
    rw [h2] at hcontr
    simp at hcontr
  · rintro ⟨h1, hall⟩
    refine ⟨h1, ?_⟩
    cases hb : is_cell_overriden (styles.take col)
    · rfl
    · obtain ⟨i, hi, hlt⟩ := hov2.mp hb
      have := hall i hi
      omega

/-- C4 witness: the amended rule instantiated on the counterexample row:
column 3 of the spans-2,9,0,1 row is settled by the amended equivalence. -/
theorem c4_visibility_amended_witness :
    3 < exC4_styles.length ∧
      (is_cell_visible exC4_styles 3 = true ↔
        ((exC4_styles.getD 3 default).span ≠ 0 ∧
          ∀ i, i < 3 → (exC4_styles.getD i default).span ≤ 3 - i)) :=
  ⟨by decide, c4_visibility_amended exC4_styles 3 (by decide)⟩

/-! ## Claim C10: tab replacement (replace_tab) -/

/-- Rust str::find for a tab character: index of the first tab. -/
def find_tab : Str → Option Nat
  | [] => none
  | c :: rest => if c = '\t' then some 0 else (find_tab rest).map (· + 1)

/-- Number of tab characters in a text. -/
def count_tabs (s : Str) : Nat := s.count '\t'

theorem find_tab_eq_none {s : Str} : find_tab s = none ↔ '\t' ∉ s := by
  induction s with
  | nil => simp [find_tab]
  | cons c rest ih =>
    by_cases hc : c = '\t'
    · simp [find_tab, hc]
    · simp [find_tab, hc, ih, Ne.symm hc]

theorem find_tab_eq_some {s : Str} {p : Nat} (h : find_tab s = some p) :
    ∃ pre suf, s = pre ++ '\t' :: suf ∧ pre.length = p ∧ '\t' ∉ pre := by
  induction s generalizing p with
  | nil => simp [find_tab] at h
  | cons c rest ih =>
    by_cases hc : c = '\t'
    · rw [find_tab, if_pos hc] at h
      obtain rfl : (0 : Nat) = p := by simpa using h
      exact ⟨[], rest, by simp [hc], rfl, by simp⟩
    · rw [find_tab, if_neg hc] at h
      obtain ⟨q, hq, rfl⟩ : ∃ q, find_tab rest = some q ∧ q + 1 = p := by
        cases hfr : find_tab rest with
        | none => rw [hfr] at h; simp at h
        | some q => rw [hfr] at h; exact ⟨q, rfl, by simpa using h⟩
      obtain ⟨pre, suf, rfl, hlen, hmem⟩ := ih hq
      exact ⟨c :: pre, suf, by simp, by simp [hlen], by
        simp only [List.mem_cons, not_or]
        exact ⟨Ne.symm hc, hmem⟩⟩

theorem count_tabs_decomp {pre suf : Str} (hpre : '\t' ∉ pre) :
    count_tabs (pre ++ '\t' :: suf) = count_tabs suf + 1 := by
  unfold count_tabs
  rw [List.count_append, List.count_cons]
  rw [List.count_eq_zero.mpr hpre]
  simp

/-- replace_tab: scan the text left to right; replace each unescaped tab
by tab-width spaces (remove it when the tab width is 0), and skip over a
tab immediately preceded by a backslash.  The Rust while loop handles
one tab per iteration, so it runs at most count_tabs iterations; the
fuel argument is structural-recursion bookkeeping only, and
replace_tab_go_spec below shows the behaviour for every sufficient
fuel. -/
def replace_tab_go (n : Nat) : Nat → Str → Nat → Str
  | 0, cell, _ => cell
  | fuel + 1, cell, skip =>
    match find_tab (cell.drop skip) with
    | none => cell
    | some p =>
      let pos := skip + p
      let is_escaped := decide (0 < pos) && (cell.getD (pos - 1) ' ' == '\\')
      if is_escaped then
        if cell.isEmpty || decide (cell.length ≤ pos + 1) then cell
        else replace_tab_go n fuel cell (pos + 1)
      else if n = 0 then
        let cell2 := cell.eraseIdx pos
        if cell2.isEmpty || decide (cell2.length ≤ pos) then cell2
        else replace_tab_go n fuel cell2 pos
      else
        let cell2 := cell.take pos ++ List.replicate n ' ' ++ cell.drop (pos + 1)
        if cell2.isEmpty || decide (cell2.length ≤ pos + 1) then cell2
        else replace_tab_go n fuel cell2 (pos + 1)

/-- replace_tab: entry point, scanning from position 0 with enough fuel
for every tab of the text. -/
def replace_tab (cell : Str) (n : Nat) : Str :=
  replace_tab_go n (count_tabs cell + 1) cell 0

/-- Whether a text ends in a backslash: the escape state its last
character leaves behind. -/
def esc_of (done : Str) : Bool := done.getLast? == some '\\'

/-- The escape state after scanning a further text pre starting from
state e. -/
def esc_after (e : Bool) (pre : Str) : Bool :=
  match pre.getLast? with
  | none => e
  | some c => c == '\\'

/-- Tab replacement as the claim words it (for claim C10): walking left
to right, an unescaped tab becomes tab-width spaces (nothing when the
width is 0), a tab immediately preceded by a backslash is kept, and
every other character is kept; the Bool argument records whether the
previous character was a backslash. -/
def tab_spec (n : Nat) : Bool → Str → Str
  | _, [] => []
  | esc, c :: rest =>
    if c = '\t' then
      if esc then '\t' :: tab_spec n false rest
      else List.replicate n ' ' ++ tab_spec n false rest
    else c :: tab_spec n (c == '\\') rest

theorem tab_spec_no_tab {rest : Str} (h : '\t' ∉ rest) (n : Nat) (e : Bool) :
    tab_spec n e rest = rest := by
  induction rest generalizing e with
  | nil => rfl
  | cons c r ih =>
    have hc : c ≠ '\t' := fun hc => h (by simp [hc])
    have hr : '\t' ∉ r := fun hm => h (by simp [hm])
    rw [tab_spec, if_neg hc, ih hr]

theorem tab_spec_append {pre : Str} (h : '\t' ∉ pre) (n : Nat) (e : Bool) (l : Str) :
    tab_spec n e (pre ++ l) = pre ++ tab_spec n (esc_after e pre) l := by
  induction pre generalizing e with
  | nil => simp [esc_after]
  | cons c r ih =>
    have hc : c ≠ '\t' := fun hc => h (by simp [hc])
    have hr : '\t' ∉ r := fun hm => h (by simp [hm])
    rw [List.cons_append, tab_spec, if_neg hc, ih hr]
    congr 2
    cases r with
    | nil => simp [esc_after]
    | cons d rs =>
      simp only [esc_after, List.getLast?_cons_cons]
      cases hgl : (d :: rs).getLast? with
      | none =>
        rw [List.getLast?_eq_none_iff] at hgl
        cases hgl
      | some x => rfl

theorem esc_of_append (done pre : Str) : esc_of (done ++ pre) = esc_after (esc_of done) pre := by
  unfold esc_of esc_after
  rw [List.getLast?_append]
  cases hp : pre.getLast? with
  | none => simp [Option.or]
  | some c => simp [Option.or]

/-- The escape test of the code, evaluated at the first tab: it is the
escape state of the text before the tab. -/
theorem is_escaped_eq (dp suf : Str) :
    (decide (0 < dp.length) && ((dp ++ '\t' :: suf).getD (dp.length - 1) ' ' == '\\')) =
      esc_of dp := by
  cases hdp : dp with
  | nil => simp [esc_of]
  | cons c r =>
    rw [← hdp]
    have hlen : 0 < dp.length := by rw [hdp]; simp
    rw [decide_eq_true hlen, Bool.true_and]
    rw [List.getD_append _ _ _ _ (by omega)]
    unfold esc_of
    rw [List.getLast?_eq_getElem?]
    rw [List.getD_eq_getElem?_getD]
    cases hge : dp[dp.length - 1]? with
    | none =>
      exfalso
      rw [List.getElem?_eq_none_iff] at hge
      omega
    | some x => simp

theorem replace_tab_go_succ_none {n fuel : Nat} {cell : Str} {skip : Nat}
    (h : find_tab (cell.drop skip) = none) :
    replace_tab_go n (fuel + 1) cell skip = cell := by
  rw [replace_tab_go, h]

theorem replace_tab_go_succ_some {n fuel : Nat} {cell : Str} {skip p : Nat}
    (h : find_tab (cell.drop skip) = some p) :
    replace_tab_go n (fuel + 1) cell skip =
      (if decide (0 < skip + p) && (cell.getD (skip + p - 1) ' ' == '\\') then
         if cell.isEmpty || decide (cell.length ≤ skip + p + 1) then cell
         else replace_tab_go n fuel cell (skip + p + 1)
       else if n = 0 then
         if (cell.eraseIdx (skip + p)).isEmpty ||
             decide ((cell.eraseIdx (skip + p)).length ≤ skip + p) then
           cell.eraseIdx (skip + p)
         else replace_tab_go n fuel (cell.eraseIdx (skip + p)) (skip + p)
       else
         if (cell.take (skip + p) ++ List.replicate n ' ' ++ cell.drop (skip + p + 1)).isEmpty ||
             decide ((cell.take (skip + p) ++ List.replicate n ' ' ++
               cell.drop (skip + p + 1)).length ≤ skip + p + 1) then
           cell.take (skip + p) ++ List.replicate n ' ' ++ cell.drop (skip + p + 1)
         else replace_tab_go n fuel
           (cell.take (skip + p) ++ List.replicate n ' ' ++ cell.drop (skip + p + 1))
           (skip + p + 1)) := by
  rw [replace_tab_go, h]

/-- The escape state left by a text ending in a given character. -/
theorem esc_of_concat (l : Str) (c : Char) : esc_of (l ++ [c]) = (c == '\\') := by
  unfold esc_of
  rw [List.getLast?_concat]
  simp

theorem esc_after_false_replicate_space (m : Nat) :
    esc_after false (List.replicate m ' ') = false := by
  cases m with
  | zero => rfl
  | succ q =>
    unfold esc_after
    have : (List.replicate (q + 1) ' ').getLast? = some ' ' := by
      have h1 : List.replicate (q + 1) ' ' = List.replicate q ' ' ++ [' '] := by
        rw [← List.replicate_succ']
      rw [h1, List.getLast?_concat]
    rw [this]
    rfl

theorem count_tabs_replicate_space_append (m : Nat) (suf : Str) :
    count_tabs (List.replicate m ' ' ++ suf) = count_tabs suf := by
  unfold count_tabs
  rw [List.count_append]
  have h0 : List.count '\t' (List.replicate m ' ') = 0 := by
    rw [List.count_eq_zero]
    intro hmem
    have := List.eq_of_mem_replicate hmem
    simp at this
  omega

/-- Removing the element at the junction of an append. -/
theorem eraseIdx_at_append {dp suf : Str} {c : Char} :
    (dp ++ c :: suf).eraseIdx dp.length = dp ++ suf := by
  rw [List.eraseIdx_eq_take_drop_succ, List.take_left' rfl]
  congr 1
  have h1 : dp ++ c :: suf = (dp ++ [c]) ++ suf := by simp
  rw [h1, List.drop_left' (by simp)]

theorem drop_succ_at_append {dp suf : Str} {c : Char} :
    (dp ++ c :: suf).drop (dp.length + 1) = suf := by
  have h1 : dp ++ c :: suf = (dp ++ [c]) ++ suf := by simp
  rw [h1, List.drop_left' (by simp)]

/-- The scanning loop agrees with the claim-side left-to-right
replacement, relative to any already-scanned prefix. -/
theorem replace_tab_go_spec (n : Nat) :
    ∀ fuel rest done, count_tabs rest < fuel →
      replace_tab_go n fuel (done ++ rest) done.length = done ++ tab_spec n (esc_of done) rest := by
  intro fuel
  induction fuel with
  | zero =>
    intro rest done hc
    omega
  | succ k ih =>
    intro rest done hc
    cases hfind : find_tab rest with
    | none =>
      have hnt : '\t' ∉ rest := find_tab_eq_none.mp hfind
      rw [replace_tab_go_succ_none (by rw [List.drop_left]; exact hfind)]
      rw [tab_spec_no_tab hnt]
    | some p =>
      obtain ⟨pre, suf, hdec, hplen, hpre⟩ := find_tab_eq_some hfind
      subst hdec
      have hcount : count_tabs suf < k := by
        rw [count_tabs_decomp hpre] at hc
        omega
      have hsome : find_tab ((done ++ (pre ++ '\t' :: suf)).drop done.length) = some p := by
        rw [List.drop_left]
        exact hfind
      rw [replace_tab_go_succ_some hsome]
      have hcell : done ++ (pre ++ '\t' :: suf) = (done ++ pre) ++ '\t' :: suf := by
        rw [List.append_assoc]
      have hposlen : done.length + p = (done ++ pre).length := by
        simp [hplen]
      rw [hcell, hposlen, is_escaped_eq (done ++ pre) suf]
      rw [tab_spec_append hpre, ← esc_of_append done pre]
      rw [show tab_spec n (esc_of (done ++ pre)) ('\t' :: suf) =
        (if esc_of (done ++ pre) then '\t' :: tab_spec n false suf
         else List.replicate n ' ' ++ tab_spec n false suf) from by rw [tab_spec, if_pos rfl]]
      cases hescv : esc_of (done ++ pre) with
      | true =>
        rw [if_pos rfl]
        cases suf with
        | nil =>
          rw [if_pos (by simp; omega)]
          simp [tab_spec]
        | cons c2 suf2 =>
          rw [if_neg (by simp; omega)]
          have hc2 : ((done ++ pre) ++ '\t' :: c2 :: suf2) =
              ((done ++ pre) ++ ['\t']) ++ (c2 :: suf2) := by simp
          have hl2 : (done ++ pre).length + 1 = ((done ++ pre) ++ ['\t']).length := by
            simp
            omega
          rw [hc2, hl2, ih (c2 :: suf2) ((done ++ pre) ++ ['\t']) hcount]
          rw [esc_of_concat]
          simp
      | false =>
        rw [if_neg (by simp)]
        by_cases hn : n = 0
        · subst hn
          rw [if_pos rfl, eraseIdx_at_append]
          cases suf with
          | nil =>
            rw [if_pos (by simp)]
            simp [tab_spec]
          | cons c2 suf2 =>
            rw [if_neg (by simp)]
            rw [ih (c2 :: suf2) (done ++ pre) hcount, hescv]
            simp
        · rw [if_neg hn]
          rw [List.take_left' rfl, drop_succ_at_append]
          cases n with
          | zero => exact absurd rfl hn
          | succ m =>
            by_cases hbreak : m = 0 ∧ suf = []
            · obtain ⟨hm, hsuf⟩ := hbreak
              subst hm
              subst hsuf
              rw [if_pos (by simp; omega)]
              simp [tab_spec]
            · rw [if_neg (by
                simp only [Bool.or_eq_true, List.isEmpty_iff, decide_eq_true_eq, not_or]
                constructor
                · intro habs
                  have := congrArg List.length habs
                  simp at this
                · intro habs
                  simp only [List.length_append, List.length_replicate] at habs
                  rcases Nat.eq_zero_or_pos suf.length with hz | hpos
                  · have hsnil : suf = [] := List.length_eq_zero.mp hz
                    exact hbreak ⟨by omega, hsnil⟩
                  · omega)]
              have hsplit : (done ++ pre) ++ List.replicate (m + 1) ' ' ++ suf =
                  ((done ++ pre) ++ [' ']) ++ (List.replicate m ' ' ++ suf) := by
                rw [List.replicate_succ]
                simp
              have hl2 : (done ++ pre).length + 1 = ((done ++ pre) ++ [' ']).length := by
                simp
                omega
              rw [hsplit, hl2]
              rw [ih (List.replicate m ' ' ++ suf) ((done ++ pre) ++ [' '])
                (by rw [count_tabs_replicate_space_append]; exact hcount)]
              rw [esc_of_concat]
              rw [tab_spec_append (by
                intro hmem
                have := List.eq_of_mem_replicate hmem
                simp at this)]
              rw [show (' ' == '\\') = false from rfl]
              rw [esc_after_false_replicate_space]
              rw [List.replicate_succ]
              simp

/-- replace_tab computes exactly the claim-side replacement starting in
the unescaped state. -/
theorem replace_tab_eq_tab_spec (cell : Str) (n : Nat) :
    replace_tab cell n = tab_spec n false cell := by
  have h := replace_tab_go_spec n (count_tabs cell + 1) cell [] (by omega)
  simpa [replace_tab, esc_of] using h


/-- C10: in content collection, every unescaped tab is replaced by
tab-width spaces (removed entirely when the tab width is 0), a tab
immediately preceded by a backslash is left unchanged, and text without
tabs is not modified: replace_tab is exactly the left-to-right
replacement tab_spec. -/
theorem c10_replace_tab :
    (∀ cell n, replace_tab cell n = tab_spec n false cell) ∧
    (∀ cell n, '\t' ∉ cell → replace_tab cell n = cell) := by
  refine ⟨replace_tab_eq_tab_spec, fun cell n h => ?_⟩
  rw [replace_tab_eq_tab_spec, tab_spec_no_tab h]

/-- C10 witness: tab-free text is returned unchanged. -/
theorem c10_replace_tab_witness :
    '\t' ∉ ("abc" : String).toList ∧ replace_tab ("abc" : String).toList 0 = ("abc" : String).toList :=
  ⟨by decide, c10_replace_tab.2 ("abc" : String).toList 0 (by decide)⟩

-- The Rust unit tests of replace_tab, reproduced by evaluation.
example : replace_tab ("123\t\tabc\t" : String).toList 3 = ("123      abc   " : String).toList := by decide
example : replace_tab ("\t" : String).toList 0 = ("" : String).toList := by decide
example : replace_tab ("\t" : String).toList 3 = ("   " : String).toList := by decide
example : replace_tab ("123\tabc" : String).toList 3 = ("123   abc" : String).toList := by decide
example : replace_tab ("123\tabc\tzxc" : String).toList 0 = ("123abczxc" : String).toList := by decide
example : replace_tab ("\\\t" : String).toList 0 = ("\\\t" : String).toList := by decide
example : replace_tab ("\\\t" : String).toList 4 = ("\\\t" : String).toList := by decide
example : replace_tab ("123\\\tabc" : String).toList 0 = ("123\\\tabc" : String).toList := by decide
example : replace_tab ("123\\\tabc" : String).toList 4 = ("123\\\tabc" : String).toList := by decide



/-! ## The border store (struct Borders) -/

/-- Error kinds of the border store (enum BorderError). -/
inductive BorderError where
  | WrongIntersectionIndex
  | WrongRowIndex
  | WrongColumnIndex
  | NotEnoughLineSymbols
  | NotEnoughIntersections
deriving DecidableEq, Repr

/-- The sparse border store (struct Borders): a map from vertical
boundary index to its line of characters (one per row), a map from
horizontal boundary index to its line (one per column), and a map from
boundary pairs to intersection characters.  The HashMaps are modelled as
functions into Option. -/
structure Borders where
  vertical : Nat → Option (List Char)
  horizontal : Nat → Option (List Char)
  intersections : Nat × Nat → Option Char
  count_columns : Nat
  count_rows : Nat

def Borders.new (count_rows count_columns : Nat) : Borders :=
  { vertical := fun _ => none
    horizontal := fun _ => none
    intersections := fun _ => none
    count_columns := count_columns
    count_rows := count_rows }

/-- get_horizontal_char: the column-th character of the horizontal
boundary at row, when that boundary exists.  (Rust asserts the line
length and indexes; the model returns none where Rust would panic on a
malformed line, which no reachable store contains.) -/
def Borders.get_horizontal_char (b : Borders) (row column : Nat) : Option Char :=
  (b.horizontal row).bind fun line => line.get? column

def Borders.get_vertical_char (b : Borders) (row column : Nat) : Option Char :=
  (b.vertical column).bind fun line => line.get? row

def Borders.get_intersection_char (b : Borders) (pos : Nat × Nat) : Option Char :=
  b.intersections pos

/-- get_row: the horizontal split line at a row boundary, as one
BorderLine per column; all-default when the boundary was never split. -/
def Borders.get_row (b : Borders) (row : Nat) : Except BorderError (List BorderLine) :=
  if b.count_rows < row then .error .WrongRowIndex
  else if (b.horizontal row).isNone then
    .ok (List.replicate b.count_columns BorderLine.default)
  else
    .ok ((List.range b.count_columns).map fun column =>
      { main := b.get_horizontal_char row column
        connector1 := b.get_intersection_char (row, column)
        connector2 := b.get_intersection_char (row, column + 1) })

/-- get_inner_row: the vertical connectors crossing a cell row, one
BorderLine per column.  The Rust loop pushes a BorderLine with
connector1 the vertical character at the column, then patches the
previous entry's connector2 with it when it is present, and finally
sets the last connector2 unconditionally; since patching only-when-Some
leaves exactly the looked-up value, the net effect per column is
connector1 at the column and connector2 at the next column. -/
def Borders.get_inner_row (b : Borders) (row : Nat) : Except BorderError (List BorderLine) :=
  if b.count_rows < row then .error .WrongRowIndex
  else
    .ok ((List.range b.count_columns).map fun column =>
      { main := none
        connector1 := b.get_vertical_char row column
        connector2 := b.get_vertical_char row (column + 1) })

/-- get_border: synthesize the 8-field border description of one cell
from the four neighbouring boundaries; a missing entry yields no border
on that side. -/
def Borders.get_border (b : Borders) (row column : Nat) : Option Border :=
  if b.count_rows < row ∨ b.count_columns < column then none
  else some
    { top := b.get_horizontal_char row column
      bottom := b.get_horizontal_char (row + 1) column
      left := b.get_vertical_char row column
      right := b.get_vertical_char row (column + 1)
      left_top_corner := b.get_intersection_char (row, column)
      left_bottom_corner := b.get_intersection_char (row + 1, column)
      right_top_corner := b.get_intersection_char (row, column + 1)
      right_bottom_corner := b.get_intersection_char (row + 1, column + 1) }

/-- The vertical boundary indices present in the store, ascending.
API calls only create boundaries between 0 and count_columns. -/
def Borders.vertical_keys (b : Borders) : List Nat :=
  (List.range (b.count_columns + 1)).filter fun v => (b.vertical v).isSome

/-- The horizontal boundary indices present in the store, ascending. -/
def Borders.horizontal_keys (b : Borders) : List Nat :=
  (List.range (b.count_rows + 1)).filter fun r => (b.horizontal r).isSome

def Borders.need_horizontal_intersections (b : Borders) : Nat :=
  b.vertical_keys.length + 1

def Borders.need_vertical_intersections (b : Borders) : Nat :=
  b.horizontal_keys.length + 1

def Borders.clear (b : Borders) : Borders :=
  { b with
    horizontal := fun _ => none
    vertical := fun _ => none
    intersections := fun _ => none }

def Borders.is_there_vertical (b : Borders) (column : Nat) : Bool :=
  (b.vertical column).isSome

def Borders.is_there_horizontal (b : Borders) (row : Nat) : Bool :=
  (b.horizontal row).isSome

/-- set_horizontal: install a horizontal boundary line and seed its
intersections with every existing vertical boundary.  (The Rust code
zips HashMap key order with the symbol list; key order is arbitrary but
every call site passes a constant list, so pairing keys in ascending
order is observationally the same.) -/
def Borders.set_horizontal (b : Borders) (row : Nat) (line : List Char)
    (intersections : List Char) : Except BorderError Borders :=
  if b.count_rows < row then .error .WrongRowIndex
  else if line.length ≠ b.count_columns then .error .NotEnoughLineSymbols
  else if intersections.length ≠ b.need_horizontal_intersections then
    .error .NotEnoughIntersections
  else
    let b1 := { b with horizontal := fun r => if r = row then some line else b.horizontal r }
    let new_inters := (b.vertical_keys.zip intersections).foldl
      (fun m q pos => if pos = (row, q.1) then some q.2 else m pos) b1.intersections
    .ok { b1 with intersections := new_inters }

/-- set_vertical: install a vertical boundary line and seed its
intersections with every existing horizontal boundary.  (The first
bounds check returns WrongRowIndex for a column, exactly as the Rust
code does.) -/
def Borders.set_vertical (b : Borders) (column : Nat) (line : List Char)
    (intersections : List Char) : Except BorderError Borders :=
  if b.count_columns < column then .error .WrongRowIndex
  else if line.length ≠ b.count_rows then .error .NotEnoughLineSymbols
  else if intersections.length ≠ b.need_vertical_intersections then
    .error .NotEnoughIntersections
  else
    let b1 := { b with vertical := fun c => if c = column then some line else b.vertical c }
    let new_inters := (b.horizontal_keys.zip intersections).foldl
      (fun m q pos => if pos = (q.1, column) then some q.2 else m pos) b1.intersections
    .ok { b1 with intersections := new_inters }

/-- set_intersection: overwrite one existing intersection character;
fails when either boundary is missing or the entry does not exist. -/
def Borders.set_intersection (b : Borders) (pos : Nat × Nat) (c : Char) :
    Except BorderError Borders :=
  if b.count_rows + 1 < pos.1 ∨ (b.horizontal pos.1).isNone then .error .WrongRowIndex
  else if b.count_columns + 1 < pos.2 ∨ (b.vertical pos.2).isNone then .error .WrongColumnIndex
  else
    match b.intersections pos with
    | some _ => .ok { b with
        intersections := fun q => if q = pos then some c else b.intersections q }
    | none => .error .WrongIntersectionIndex

/-- set_row_symbol: overwrite one character of a horizontal boundary
line.  The final unwrap of the Rust code panics when the column equals
the line length (the guard checks only strictly-greater); the model
returns none there. -/
def Borders.set_row_symbol (b : Borders) (pos : Nat × Nat) (c : Char) :
    Option (Except BorderError Borders) :=
  let row := pos.1
  let column := pos.2
  if b.count_rows < row ∨ (b.horizontal row).isNone then some (.error .WrongRowIndex)
  else if b.count_columns < column then some (.error .WrongColumnIndex)
  else
    match b.horizontal row with
    | none => none
    | some chars =>
      if chars.length < column then some (.error .WrongColumnIndex)
      else if column < chars.length then
        some (.ok { b with
          horizontal := fun r => if r = row then some (chars.set column c) else b.horizontal r })
      else none

/-- set_column_symbol: overwrite one character of a vertical boundary
line; like set_row_symbol it panics (none) when the row equals the line
length. -/
def Borders.set_column_symbol (b : Borders) (pos : Nat × Nat) (c : Char) :
    Option (Except BorderError Borders) :=
  let row := pos.1
  let column := pos.2
  if b.count_rows < row then some (.error .WrongRowIndex)
  else if b.count_columns < column ∨ (b.vertical column).isNone then
    some (.error .WrongColumnIndex)
  else
    match b.vertical column with
    | none => none
    | some chars =>
      if chars.length < row then some (.error .WrongColumnIndex)
      else if row < chars.length then
        some (.ok { b with
          vertical := fun col => if col = column then some (chars.set row c) else b.vertical col })
      else none

/-! ## Claim C8: the single-character border mutators -/

/-- A 1x1 border store whose top boundary is split (one character). -/
def exC8_borders : Borders :=
  match Borders.set_horizontal (Borders.new 1 1) 0 [' '] [' '] with
  | .ok b => b
  | .error _ => Borders.new 1 1

/-- C8: set_row_symbol at (0, 1) on a 1-column grid whose row-0 boundary
is split: the column index equals the line length, every guard passes
(they check only strictly-greater), and the final unwrap panics instead
of returning an error.  The companion facts show the surrounding
behaviour the claim correctly describes: a never-split boundary or a
larger index yields an error, and a successful call mutates exactly the
one addressed character. -/
theorem c8_set_symbol_boundary_panic :
    Borders.set_row_symbol exC8_borders (0, 1) 'x' = none ∧
    Borders.set_column_symbol exC8_borders (1, 0) 'x' =
      some (.error BorderError.WrongColumnIndex) ∧
    Borders.set_row_symbol exC8_borders (1, 0) 'x' =
      some (.error BorderError.WrongRowIndex) ∧
    Borders.set_row_symbol exC8_borders (0, 2) 'x' =
      some (.error BorderError.WrongColumnIndex) ∧
    Borders.set_intersection exC8_borders (0, 0) 'x' =
      .error BorderError.WrongColumnIndex ∧
    (∃ b2, Borders.set_row_symbol exC8_borders (0, 0) 'x' = some (.ok b2) ∧
      b2.horizontal 0 = some ['x'] ∧
      (∀ r, r ≠ 0 → b2.horizontal r = exC8_borders.horizontal r) ∧
      b2.vertical = exC8_borders.vertical ∧
      b2.intersections = exC8_borders.intersections) := by
  refine ⟨rfl, rfl, rfl, rfl, rfl, ?_⟩
  refine ⟨_, rfl, rfl, ?_, rfl, rfl⟩
  intro r hr
  simp [hr]



/-! ## The grid (struct Grid) and its operations -/

/-- Default split-line fill characters. -/
def DEFAULT_SPLIT_BORDER_CHAR : Char := ' '

def DEFAULT_SPLIT_INTERSECTION_CHAR : Char := ' '

/-- Settings: a sparse update applied by Grid.set (struct Settings). -/
structure Settings where
  text : Option Str
  padding : Option Padding
  border : Option Border
  border_split_check : Bool
  span : Option Nat
  alignment_h : Option AlignmentHorizontal
  alignment_v : Option AlignmentVertical
  formatting : Option Formatting
deriving Repr

def Settings.default : Settings :=
  { text := none, padding := none, border := none, border_split_check := false,
    span := none, alignment_h := none, alignment_v := none, formatting := none }

instance : Inhabited Settings := ⟨Settings.default⟩

def Settings.new : Settings := Settings.default

/-- The builder methods of Settings; Rust names text, padding, span,
border and formatting collide with the field projections in Lean and
get a with_ prefix. -/
def Settings.with_text (s : Settings) (t : Str) : Settings := { s with text := some t }

def Settings.with_padding (s : Settings) (left right top bottom : Indent) : Settings :=
  { s with padding := some { top := top, bottom := bottom, left := left, right := right } }

def Settings.alignment (s : Settings) (a : AlignmentHorizontal) : Settings :=
  { s with alignment_h := some a }

def Settings.vertical_alignment (s : Settings) (a : AlignmentVertical) : Settings :=
  { s with alignment_v := some a }

def Settings.with_span (s : Settings) (sp : Nat) : Settings := { s with span := some sp }

def Settings.with_border (s : Settings) (b : Border) : Settings := { s with border := some b }

/-- border_restriction: a false argument turns the split-line check on,
i.e. missing split lines will be auto-created by Grid.set. -/
def Settings.border_restriction (s : Settings) (strict : Bool) : Settings :=
  { s with border_split_check := ! strict }

def Settings.with_formatting (s : Settings) (f : Formatting) : Settings :=
  { s with formatting := some f }

/-- The grid (struct Grid).  cells is the R-by-C matrix of cell texts
(entries outside the size are never read; Rust indexing panics there and
the mutators below return none in that case), styles is the per-entity
override map, and override_split_lines the per-boundary override
strings. -/
structure Grid where
  size : Nat × Nat
  cells : Nat → Nat → Str
  styles : Entity → Option Style
  margin : Margin
  borders : Borders
  override_split_lines : Nat → Option Str

/-- Grid::new: fixed size, empty cells, a Global default style, default
margin, no borders, no overrides. -/
def Grid.new (rows columns : Nat) : Grid :=
  { size := (rows, columns)
    cells := fun _ _ => []
    styles := fun e => if e = Entity.Global then some Style.default else none
    margin := Margin.default
    borders := Borders.new rows columns
    override_split_lines := fun _ => none }

def Grid.count_rows (g : Grid) : Nat := g.size.1

def Grid.count_columns (g : Grid) : Nat := g.size.2

/-- Grid::style: walk the fallback chain of the entity and return the
first stored override.  Rust declares the empty result unreachable
(there is always a Global entry); the model returns an Option. -/
def Grid.style (g : Grid) (entity : Entity) : Option Style :=
  let lookup_table := match entity with
    | Entity.Global => [Entity.Global]
    | Entity.Column column => [Entity.Column column, Entity.Global]
    | Entity.Row row => [Entity.Row row, Entity.Global]
    | Entity.Cell row column =>
        [Entity.Cell row column, Entity.Column column, Entity.Row row, Entity.Global]
  lookup_table.findSome? fun e => g.styles e

/-- The resolved style with the unreachable-panic defaulted away; on
every grid reachable from construction the default is dead code. -/
def Grid.styleD (g : Grid) (e : Entity) : Style := (g.style e).getD Style.default

def Grid.update_styles (g : Grid) (e : Entity) (st : Style) : Grid :=
  { g with styles := fun x => if x = e then some st else g.styles x }

/-- Grid::style_mut followed by the caller's field assignment f: when no
override exists for the entity, the currently-resolved style is cloned
first as the new override base; none models the unreachable panic of an
absent Global entry. -/
def Grid.style_mut_apply (g : Grid) (e : Entity) (f : Style → Style) : Option Grid :=
  match g.styles e with
  | some st => some (g.update_styles e (f st))
  | none => (g.style e).map fun base => g.update_styles e (f base)

def Grid.set_cell_text (g : Grid) (row column : Nat) (t : Str) : Grid :=
  { g with cells := fun r c => if r = row ∧ c = column then t else g.cells r c }

/-- Grid::set_text: write the text into every cell of the entity; none
models the panic on an out-of-range index (loops that execute zero
iterations never reach the indexing and so never panic). -/
def Grid.set_text (g : Grid) (entity : Entity) (t : Str) : Option Grid :=
  match entity with
  | Entity.Cell row column =>
    if row < g.count_rows ∧ column < g.count_columns then some (g.set_cell_text row column t)
    else none
  | Entity.Column column =>
    if g.count_rows = 0 ∨ column < g.count_columns then
      some ((List.range g.count_rows).foldl (fun a row => a.set_cell_text row column t) g)
    else none
  | Entity.Row row =>
    if g.count_columns = 0 ∨ row < g.count_rows then
      some ((List.range g.count_columns).foldl (fun a column => a.set_cell_text row column t) g)
    else none
  | Entity.Global =>
    some ((List.range g.count_rows).foldl (fun a row =>
      (List.range g.count_columns).foldl (fun b column => b.set_cell_text row column t) a) g)

def Grid.set_margin (g : Grid) (m : Margin) : Grid := { g with margin := m }

/-- Grid::add_horizontal_split with the default fill characters; none
models the panicking unwrap of the insert. -/
def Grid.add_horizontal_split (g : Grid) (row : Nat) : Option Grid :=
  match g.borders.set_horizontal row
      (List.replicate g.count_columns DEFAULT_SPLIT_BORDER_CHAR)
      (List.replicate g.borders.need_horizontal_intersections
        DEFAULT_SPLIT_INTERSECTION_CHAR) with
  | .ok b => some { g with borders := b }
  | .error _ => none

def Grid.add_vertical_split (g : Grid) (column : Nat) : Option Grid :=
  match g.borders.set_vertical column
      (List.replicate g.count_rows DEFAULT_SPLIT_BORDER_CHAR)
      (List.replicate g.borders.need_vertical_intersections
        DEFAULT_SPLIT_INTERSECTION_CHAR) with
  | .ok b => some { g with borders := b }
  | .error _ => none

def Grid.is_vertical_present (g : Grid) (column : Nat) : Bool :=
  g.borders.is_there_vertical column

def Grid.is_horizontal_present (g : Grid) (row : Nat) : Bool :=
  g.borders.is_there_horizontal row

def Grid.add_grid_split (g : Grid) : Option Grid := do
  let g ← (List.range (g.count_rows + 1)).foldlM (fun a row => a.add_horizontal_split row) g
  (List.range (g.count_columns + 1)).foldlM (fun a column => a.add_vertical_split column) g

def Grid.clear_split_grid (g : Grid) : Grid := { g with borders := g.borders.clear }

def Grid.clear_overide_split_lines (g : Grid) : Grid :=
  { g with override_split_lines := fun _ => none }

def Grid.override_split_line (g : Grid) (row : Nat) (line : Str) : Grid :=
  { g with override_split_lines := fun r => if r = row then some line else g.override_split_lines r }

/-- One border-field application: absent field is a no-op; a present
field calls the store mutator and unwraps (none on error or panic). -/
def Grid.apply_column_symbol (g : Grid) (pos : Nat × Nat) (oc : Option Char) : Option Grid :=
  match oc with
  | none => some g
  | some c =>
    match g.borders.set_column_symbol pos c with
    | some (.ok b) => some { g with borders := b }
    | _ => none

def Grid.apply_row_symbol (g : Grid) (pos : Nat × Nat) (oc : Option Char) : Option Grid :=
  match oc with
  | none => some g
  | some c =>
    match g.borders.set_row_symbol pos c with
    | some (.ok b) => some { g with borders := b }
    | _ => none

def Grid.apply_intersection (g : Grid) (pos : Nat × Nat) (oc : Option Char) : Option Grid :=
  match oc with
  | none => some g
  | some c =>
    match g.borders.set_intersection pos c with
    | .ok b => some { g with borders := b }
    | .error _ => none

/-- Grid::set_border_for_cell: apply the eight optional border fields of
one cell, in the order of the source (left, right, top, bottom, then
the four corners). -/
def Grid.set_border_for_cell (g : Grid) (row column : Nat) (border : Border) : Option Grid := do
  let g ← g.apply_column_symbol (row, column) border.left
  let g ← g.apply_column_symbol (row, column + 1) border.right
  let g ← g.apply_row_symbol (row, column) border.top
  let g ← g.apply_row_symbol (row + 1, column) border.bottom
  let g ← g.apply_intersection (row, column) border.left_top_corner
  let g ← g.apply_intersection (row, column + 1) border.right_top_corner
  let g ← g.apply_intersection (row + 1, column) border.left_bottom_corner
  let g ← g.apply_intersection (row + 1, column + 1) border.right_bottom_corner
  some g

def Grid.set_border (g : Grid) (entity : Entity) (border : Border) : Option Grid :=
  match entity with
  | Entity.Global =>
    (List.range g.count_columns).foldlM (fun a column =>
      (List.range a.count_rows).foldlM (fun b row => b.set_border_for_cell row column border) a) g
  | Entity.Column column =>
    (List.range g.count_rows).foldlM (fun a row => a.set_border_for_cell row column border) g
  | Entity.Row row =>
    (List.range g.count_columns).foldlM (fun a column => a.set_border_for_cell row column border) g
  | Entity.Cell row column => g.set_border_for_cell row column border

/-- Grid::add_split_lines_for_cell: create any missing boundary a
present border field relies on. -/
def Grid.add_split_lines_for_cell (g : Grid) (row column : Nat) (border : Border) :
    Option Grid :=
  let left_affected := border.left.isSome || border.left_bottom_corner.isSome ||
    border.left_top_corner.isSome
  (if left_affected && ! g.is_vertical_present column then
      g.add_vertical_split column
    else some g).bind fun g =>
  let right_affected := border.right.isSome || border.right_bottom_corner.isSome ||
    border.right_top_corner.isSome
  (if right_affected && ! g.is_vertical_present (column + 1) then
      g.add_vertical_split (column + 1)
    else some g).bind fun g =>
  let top_affected := border.top.isSome || border.right_top_corner.isSome ||
    border.left_top_corner.isSome
  (if top_affected && ! g.is_horizontal_present row then
      g.add_horizontal_split row
    else some g).bind fun g =>
  let bottom_affected := border.bottom.isSome || border.right_bottom_corner.isSome ||
    border.left_bottom_corner.isSome
  (if bottom_affected && ! g.is_horizontal_present (row + 1) then
      g.add_horizontal_split (row + 1)
    else some g).bind fun g =>
  some g

def Grid.add_split_lines (g : Grid) (entity : Entity) (border : Border) : Option Grid :=
  match entity with
  | Entity.Global =>
    (List.range g.count_columns).foldlM (fun a column =>
      (List.range a.count_rows).foldlM (fun b row =>
        b.add_split_lines_for_cell row column border) a) g
  | Entity.Column column =>
    (List.range g.count_rows).foldlM (fun a row =>
      a.add_split_lines_for_cell row column border) g
  | Entity.Row row =>
    (List.range g.count_columns).foldlM (fun a column =>
      a.add_split_lines_for_cell row column border) g
  | Entity.Cell row column => g.add_split_lines_for_cell row column border

/-- One optional style-field application of Grid.set: an absent field is
a no-op, a present one goes through style_mut and assigns the field. -/
def Grid.opt_field_step {α : Type} (g : Grid) (e : Entity) (o : Option α)
    (f : α → Style → Style) : Option Grid :=
  match o with
  | some v => g.style_mut_apply e (f v)
  | none => some g

/-- The text step of Grid.set. -/
def Grid.text_step (g : Grid) (e : Entity) (s : Settings) : Option Grid :=
  match s.text with
  | some t => g.set_text e t
  | none => some g

/-- The border step of Grid.set: optionally auto-create the split lines,
then set the border. -/
def Grid.border_step (g : Grid) (e : Entity) (s : Settings) : Option Grid :=
  match s.border with
  | some border =>
    (if s.border_split_check then g.add_split_lines e border else some g).bind
      fun a => a.set_border e border
  | none => some g

/-- Grid::set: apply every present field of the settings in source
order (text, padding, horizontal and vertical alignment, span,
formatting, border), auto-creating split lines first when the
border_split_check flag is on. -/
def Grid.set (g : Grid) (entity : Entity) (settings : Settings) : Option Grid :=
  (g.text_step entity settings).bind fun g =>
  (g.opt_field_step entity settings.padding (fun p st => { st with padding := p })).bind fun g =>
  (g.opt_field_step entity settings.alignment_h
    (fun a st => { st with alignment_h := a })).bind fun g =>
  (g.opt_field_step entity settings.alignment_v
    (fun a st => { st with alignment_v := a })).bind fun g =>
  (g.opt_field_step entity settings.span (fun sp st => { st with span := sp })).bind fun g =>
  (g.opt_field_step entity settings.formatting
    (fun f st => { st with formatting := f })).bind fun g =>
  g.border_step entity settings

/-- Grid::get_settings: the resolved settings of one cell (text,
alignments, span, padding, and the synthesized border); none models the
panics on a missing style or an out-of-range border index. -/
def Grid.get_settings (g : Grid) (row column : Nat) : Option Settings := do
  let style ← g.style (Entity.Cell row column)
  let content := g.cells row column
  let border ← g.borders.get_border row column
  some ((((((Settings.default.with_text content).alignment style.alignment_h).vertical_alignment
      style.alignment_v).with_span style.span).with_padding style.padding.left
      style.padding.right style.padding.top style.padding.bottom).with_border border)

/-- Grid::set_cell_borders: split the whole grid, then set the border on
every cell. -/
def Grid.set_cell_borders (g : Grid) (border : Border) : Option Grid := do
  let g ← g.add_grid_split
  (List.range g.count_rows).foldlM (fun a row =>
    (List.range a.count_columns).foldlM (fun b column =>
      b.set (Entity.Cell row column) (Settings.new.with_border border)) a) g

/-- Grid::extract, after the range bounds are converted to start/end
indices: build a fresh grid of the selected size and copy every cell's
resolved settings, renumbered from (0, 0), with the border-creation
check switched on (border_restriction false). -/
def Grid.extract (g : Grid) (start_row end_row start_column end_column : Nat) : Option Grid :=
  let new_count_rows := end_row - start_row
  let new_count_columns := end_column - start_column
  (List.range new_count_rows).foldlM (fun ng new_row =>
    (List.range new_count_columns).foldlM (fun ng2 new_column => do
      let settings ← g.get_settings (start_row + new_row) (start_column + new_column)
      ng2.set (Entity.Cell new_row new_column) (settings.border_restriction false)) ng)
    (Grid.new new_count_rows new_count_columns)

/-- Extraction of the full range, as used by the round-trip property. -/
def Grid.extract_full (g : Grid) : Option Grid :=
  g.extract 0 g.count_rows 0 g.count_columns



/-! ## Characterizing the styles map through Grid.set (claims C6, C7) -/

def Settings.has_style_field (s : Settings) : Bool :=
  s.padding.isSome || s.alignment_h.isSome || s.alignment_v.isSome ||
  s.span.isSome || s.formatting.isSome

/-- The claim-side description of applying a settings diff to a base
style: every present field overwrites, absent fields keep the base. -/
def apply_style_diff (base : Style) (s : Settings) : Style :=
  { span := s.span.getD base.span
    padding := s.padding.getD base.padding
    alignment_h := s.alignment_h.getD base.alignment_h
    alignment_v := s.alignment_v.getD base.alignment_v
    formatting := s.formatting.getD base.formatting }

/-- The override value accumulated by the sequential field applications
of Grid.set, starting from no override with the given clone base. -/
def style_acc (s : Settings) (base : Style) : Option Style :=
  let acc : Option Style := none
  let acc := match s.padding with
    | some p => some { acc.getD base with padding := p }
    | none => acc
  let acc := match s.alignment_h with
    | some a => some { acc.getD base with alignment_h := a }
    | none => acc
  let acc := match s.alignment_v with
    | some a => some { acc.getD base with alignment_v := a }
    | none => acc
  let acc := match s.span with
    | some sp => some { acc.getD base with span := sp }
    | none => acc
  match s.formatting with
  | some f => some { acc.getD base with formatting := f }
  | none => acc

theorem style_acc_eq (s : Settings) (base : Style) :
    style_acc s base =
      if s.has_style_field then some (apply_style_diff base s) else none := by
  obtain ⟨t, p, b, bc, sp, ah, av, f⟩ := s
  cases p <;> cases ah <;> cases av <;> cases sp <;> cases f <;> rfl

/-- An override stored for an entity is what resolution returns: the
fallback chain starts with the entity itself. -/
theorem Grid.style_of_self {g : Grid} {e : Entity} {st : Style} (h : g.styles e = some st) :
    g.style e = some st := by
  cases e <;> simp [Grid.style, h]

/-- Resolution reads only the styles map. -/
theorem Grid.style_congr {g1 g2 : Grid} (h : ∀ x, g1.styles x = g2.styles x) (e : Entity) :
    g1.style e = g2.style e := by
  cases e <;> simp [Grid.style, h]

theorem Grid.update_styles_at (g : Grid) (e : Entity) (st : Style) :
    (g.update_styles e st).styles e = some st := by
  simp [Grid.update_styles]

theorem Grid.update_styles_ne (g : Grid) (e x : Entity) (st : Style) (h : x ≠ e) :
    (g.update_styles e st).styles x = g.styles x := by
  simp [Grid.update_styles, h]

/-- Generic preservation of a projection along a pure fold. -/
theorem foldl_grid_preserves {γ : Type} {δ : Type} (proj : Grid → δ)
    {f : Grid → γ → Grid} (hf : ∀ a x, proj (f a x) = proj a) :
    ∀ (l : List γ) (g : Grid), proj (l.foldl f g) = proj g := by
  intro l
  induction l with
  | nil => intro g; rfl
  | cons x xs ih => intro g; rw [List.foldl_cons, ih, hf]

/-- Generic preservation of a projection along an option fold. -/
theorem foldlM_grid_preserves {γ : Type} {δ : Type} (proj : Grid → δ)
    {f : Grid → γ → Option Grid} (hf : ∀ a x b, f a x = some b → proj b = proj a) :
    ∀ {l : List γ} {g g' : Grid}, l.foldlM f g = some g' → proj g' = proj g := by
  intro l
  induction l with
  | nil =>
    intro g g' h
    obtain rfl := Option.some.inj h
    rfl
  | cons x xs ih =>
    intro g g' h
    rw [List.foldlM_cons] at h
    obtain ⟨b, hb, hrest⟩ := Option.bind_eq_some.mp h
    rw [ih hrest, hf g x b hb]

/-- Generic preservation of a property along an option fold. -/
theorem foldlM_grid_preserves_prop {γ : Type} (P : Grid → Prop)
    {f : Grid → γ → Option Grid} (hf : ∀ a x b, f a x = some b → P a → P b) :
    ∀ {l : List γ} {g g' : Grid}, l.foldlM f g = some g' → P g → P g' := by
  intro l
  induction l with
  | nil =>
    intro g g' h hp
    obtain rfl := Option.some.inj h
    exact hp
  | cons x xs ih =>
    intro g g' h hp
    rw [List.foldlM_cons] at h
    obtain ⟨b, hb, hrest⟩ := Option.bind_eq_some.mp h
    exact ih hrest (hf g x b hb hp)

theorem Grid.set_text_styles {g g' : Grid} {e : Entity} {t : Str}
    (h : g.set_text e t = some g') : g'.styles = g.styles := by
  have hc : ∀ (a : Grid) (r c : Nat), (a.set_cell_text r c t).styles = a.styles :=
    fun _ _ _ => rfl
  cases e with
  | Global =>
    simp only [Grid.set_text] at h
    obtain rfl := Option.some.inj h
    exact foldl_grid_preserves Grid.styles
      (fun a r => foldl_grid_preserves Grid.styles (fun b c => hc b r c) _ a) _ g
  | Column column =>
    simp only [Grid.set_text] at h
    split at h
    · obtain rfl := Option.some.inj h
      exact foldl_grid_preserves Grid.styles (fun a r => hc a r column) _ g
    · cases h
  | Row row =>
    simp only [Grid.set_text] at h
    split at h
    · obtain rfl := Option.some.inj h
      exact foldl_grid_preserves Grid.styles (fun a c => hc a row c) _ g
    · cases h
  | Cell row column =>
    simp only [Grid.set_text] at h
    split at h
    · obtain rfl := Option.some.inj h
      rfl
    · cases h

theorem Grid.add_horizontal_split_styles {g g' : Grid} {r : Nat}
    (h : g.add_horizontal_split r = some g') : g'.styles = g.styles := by
  unfold Grid.add_horizontal_split at h
  split at h
  · obtain rfl := Option.some.inj h
    rfl
  · cases h

theorem Grid.add_vertical_split_styles {g g' : Grid} {c : Nat}
    (h : g.add_vertical_split c = some g') : g'.styles = g.styles := by
  unfold Grid.add_vertical_split at h
  split at h
  · obtain rfl := Option.some.inj h
    rfl
  · cases h

theorem Grid.apply_column_symbol_styles {g g' : Grid} {pos : Nat × Nat} {oc : Option Char}
    (h : g.apply_column_symbol pos oc = some g') : g'.styles = g.styles := by
  unfold Grid.apply_column_symbol at h
  split at h
  · obtain rfl := Option.some.inj h
    rfl
  · split at h
    · obtain rfl := Option.some.inj h
      rfl
    · cases h

theorem Grid.apply_row_symbol_styles {g g' : Grid} {pos : Nat × Nat} {oc : Option Char}
    (h : g.apply_row_symbol pos oc = some g') : g'.styles = g.styles := by
  unfold Grid.apply_row_symbol at h
  split at h
  · obtain rfl := Option.some.inj h
    rfl
  · split at h
    · obtain rfl := Option.some.inj h
      rfl
    · cases h

theorem Grid.apply_intersection_styles {g g' : Grid} {pos : Nat × Nat} {oc : Option Char}
    (h : g.apply_intersection pos oc = some g') : g'.styles = g.styles := by
  unfold Grid.apply_intersection at h
  split at h
  · obtain rfl := Option.some.inj h
    rfl
  · split at h
    · obtain rfl := Option.some.inj h
      rfl
    · cases h

theorem Grid.set_border_for_cell_styles {g g' : Grid} {r c : Nat} {bd : Border}
    (h : g.set_border_for_cell r c bd = some g') : g'.styles = g.styles := by
  unfold Grid.set_border_for_cell at h
  obtain ⟨g1, h1, h⟩ := Option.bind_eq_some.mp h
  obtain ⟨g2, h2, h⟩ := Option.bind_eq_some.mp h
  obtain ⟨g3, h3, h⟩ := Option.bind_eq_some.mp h
  obtain ⟨g4, h4, h⟩ := Option.bind_eq_some.mp h
  obtain ⟨g5, h5, h⟩ := Option.bind_eq_some.mp h
  obtain ⟨g6, h6, h⟩ := Option.bind_eq_some.mp h
  obtain ⟨g7, h7, h⟩ := Option.bind_eq_some.mp h
  obtain ⟨g8, h8, h⟩ := Option.bind_eq_some.mp h
  obtain rfl := Option.some.inj h
  rw [Grid.apply_intersection_styles h8, Grid.apply_intersection_styles h7,
    Grid.apply_intersection_styles h6, Grid.apply_intersection_styles h5,
    Grid.apply_row_symbol_styles h4, Grid.apply_row_symbol_styles h3,
    Grid.apply_column_symbol_styles h2, Grid.apply_column_symbol_styles h1]

theorem Grid.set_border_styles {g g' : Grid} {e : Entity} {bd : Border}
    (h : g.set_border e bd = some g') : g'.styles = g.styles := by
  cases e with
  | Global =>
    exact foldlM_grid_preserves Grid.styles (fun a x b hb =>
      foldlM_grid_preserves Grid.styles
        (fun a2 x2 b2 hb2 => Grid.set_border_for_cell_styles hb2) hb) h
  | Column column =>
    exact foldlM_grid_preserves Grid.styles
      (fun a x b hb => Grid.set_border_for_cell_styles hb) h
  | Row row =>
    exact foldlM_grid_preserves Grid.styles
      (fun a x b hb => Grid.set_border_for_cell_styles hb) h
  | Cell row column => exact Grid.set_border_for_cell_styles h

theorem Grid.add_split_lines_for_cell_styles {g g' : Grid} {r c : Nat} {bd : Border}
    (h : g.add_split_lines_for_cell r c bd = some g') : g'.styles = g.styles := by
  unfold Grid.add_split_lines_for_cell at h
  obtain ⟨g1, h1, h⟩ := Option.bind_eq_some.mp h
  obtain ⟨g2, h2, h⟩ := Option.bind_eq_some.mp h
  obtain ⟨g3, h3, h⟩ := Option.bind_eq_some.mp h
  obtain ⟨g4, h4, h⟩ := Option.bind_eq_some.mp h
  obtain rfl := Option.some.inj h
  have step : ∀ {a b : Grid} (cond : Bool) (act : Grid → Option Grid),
      (∀ a2 b2, act a2 = some b2 → b2.styles = a2.styles) →
      (if cond then act a else some a) = some b → b.styles = a.styles := by
    intro a b cond act hact hif
    cases cond with
    | true => exact hact a b hif
    | false =>
      obtain rfl := Option.some.inj hif
      rfl
  rw [step _ _ (fun a2 b2 hb => Grid.add_horizontal_split_styles hb) h4,
    step _ _ (fun a2 b2 hb => Grid.add_horizontal_split_styles hb) h3,
    step _ _ (fun a2 b2 hb => Grid.add_vertical_split_styles hb) h2,
    step _ _ (fun a2 b2 hb => Grid.add_vertical_split_styles hb) h1]

theorem Grid.add_split_lines_styles {g g' : Grid} {e : Entity} {bd : Border}
    (h : g.add_split_lines e bd = some g') : g'.styles = g.styles := by
  cases e with
  | Global =>
    exact foldlM_grid_preserves Grid.styles (fun a x b hb =>
      foldlM_grid_preserves Grid.styles
        (fun a2 x2 b2 hb2 => Grid.add_split_lines_for_cell_styles hb2) hb) h
  | Column column =>
    exact foldlM_grid_preserves Grid.styles
      (fun a x b hb => Grid.add_split_lines_for_cell_styles hb) h
  | Row row =>
    exact foldlM_grid_preserves Grid.styles
      (fun a x b hb => Grid.add_split_lines_for_cell_styles hb) h
  | Cell row column => exact Grid.add_split_lines_for_cell_styles h



/-- The styles map during the sequential field applications of Grid.set:
away from the target entity nothing changes; at the entity the map holds
the accumulated override (nothing while no field has been applied). -/
def StylesAfter (g0 g1 : Grid) (e : Entity) (acc : Option Style) : Prop :=
  (∀ x, x ≠ e → g1.styles x = g0.styles x) ∧
  (acc = none → ∀ x, g1.styles x = g0.styles x) ∧
  (∀ st, acc = some st → g1.styles e = some st)

theorem styles_after_start {g0 g1 : Grid} (e : Entity) (h : g1.styles = g0.styles) :
    StylesAfter g0 g1 e none :=
  ⟨fun x _ => by rw [h], fun _ x => by rw [h], fun st hst => by cases hst⟩

/-- One optional field application, at the level of the accumulated
override value. -/
def acc_step {α : Type} (o : Option α) (f : α → Style → Style) (base : Style)
    (acc : Option Style) : Option Style :=
  match o with
  | some v => some (f v (acc.getD base))
  | none => acc

theorem styles_after_step {α : Type} {g0 g1 g2 : Grid} {e : Entity} {acc : Option Style}
    (o : Option α) (f : α → Style → Style)
    (hsa : StylesAfter g0 g1 e acc)
    (h : g1.opt_field_step e o f = some g2) :
    StylesAfter g0 g2 e (acc_step o f (g0.styleD e) acc) := by
  obtain ⟨h1, h2, h3⟩ := hsa
  cases o with
  | none =>
    simp only [Grid.opt_field_step] at h
    obtain rfl := Option.some.inj h
    exact ⟨h1, h2, h3⟩
  | some v =>
    simp only [Grid.opt_field_step, Grid.style_mut_apply] at h
    cases hse : g1.styles e with
    | some st =>
      rw [hse] at h
      obtain rfl := Option.some.inj h
      have hval : st = acc.getD (g0.styleD e) := by
        cases hacc : acc with
        | some st0 =>
          have hst := h3 st0 hacc
          rw [hse] at hst
          obtain rfl := Option.some.inj hst
          rfl
        | none =>
          have hall := h2 hacc
          have hg0 : g0.styles e = some st := by rw [← hall e, hse]
          have hres : g0.style e = some st := Grid.style_of_self hg0
          simp [Grid.styleD, hres]
      refine ⟨?_, ?_, ?_⟩
      · intro x hx
        rw [Grid.update_styles_ne _ _ _ _ hx, h1 x hx]
      · intro habs
        simp [acc_step] at habs
      · intro st2 hst2
        simp only [acc_step] at hst2
        obtain rfl := Option.some.inj hst2.symm
        rw [Grid.update_styles_at, hval]
    | none =>
      rw [hse] at h
      obtain ⟨base, hb, hg2⟩ := Option.map_eq_some'.mp h
      cases hacc : acc with
      | some st0 =>
        have hst := h3 st0 hacc
        rw [hse] at hst
        cases hst
      | none =>
        have hall := h2 hacc
        have hstyle : g0.style e = some base := by
          rw [← Grid.style_congr hall e]
          exact hb
        have hval : base = g0.styleD e := by simp [Grid.styleD, hstyle]
        subst hg2
        refine ⟨?_, ?_, ?_⟩
        · intro x hx
          rw [Grid.update_styles_ne _ _ _ _ hx, h1 x hx]
        · intro habs
          simp [acc_step] at habs
        · intro st2 hst2
          simp only [acc_step, Option.getD_none] at hst2
          obtain rfl := Option.some.inj hst2.symm
          rw [Grid.update_styles_at, hval]

/-- The styles-map effect of the border step of Grid.set. -/
theorem Grid.set_border_step_styles {g g' : Grid} {e : Entity} {s : Settings}
    (h : g.border_step e s = some g') : g'.styles = g.styles := by
  unfold Grid.border_step at h
  cases hb : s.border with
  | none =>
    rw [hb] at h
    obtain rfl := Option.some.inj h
    rfl
  | some border =>
    rw [hb] at h
    obtain ⟨g1, h1, h2⟩ := Option.bind_eq_some.mp h
    have hs1 : g1.styles = g.styles := by
      cases hc : s.border_split_check with
      | true =>
        rw [hc] at h1
        exact Grid.add_split_lines_styles (by simpa using h1)
      | false =>
        rw [hc] at h1
        simp only [Bool.false_eq_true, if_false] at h1
        obtain rfl := Option.some.inj h1
        rfl
    rw [Grid.set_border_styles h2, hs1]

/-- The complete styles-map characterization of Grid.set. -/
theorem Grid.set_styles_after {g g' : Grid} {e : Entity} {s : Settings}
    (h : g.set e s = some g') :
    StylesAfter g g' e (style_acc s (g.styleD e)) := by
  unfold Grid.set at h
  obtain ⟨g1, h1, h⟩ := Option.bind_eq_some.mp h
  obtain ⟨g2, h2, h⟩ := Option.bind_eq_some.mp h
  obtain ⟨g3, h3, h⟩ := Option.bind_eq_some.mp h
  obtain ⟨g4, h4, h⟩ := Option.bind_eq_some.mp h
  obtain ⟨g5, h5, h⟩ := Option.bind_eq_some.mp h
  obtain ⟨g6, h6, h⟩ := Option.bind_eq_some.mp h
  have hs1 : g1.styles = g.styles := by
    unfold Grid.text_step at h1
    cases ht : s.text with
    | none =>
      rw [ht] at h1
      obtain rfl := Option.some.inj h1
      rfl
    | some t =>
      rw [ht] at h1
      exact Grid.set_text_styles h1
  have sa0 : StylesAfter g g1 e none := styles_after_start e hs1
  have sa1 := styles_after_step s.padding
    (fun p st => { st with padding := p }) sa0 h2
  have sa2 := styles_after_step s.alignment_h
    (fun a st => { st with alignment_h := a }) sa1 h3
  have sa3 := styles_after_step s.alignment_v
    (fun a st => { st with alignment_v := a }) sa2 h4
  have sa4 := styles_after_step s.span
    (fun sp st => { st with span := sp }) sa3 h5
  have sa5 := styles_after_step s.formatting
    (fun f st => { st with formatting := f }) sa4 h6
  have hs' : g'.styles = g6.styles := Grid.set_border_step_styles h
  have hconv : style_acc s (g.styleD e) =
      acc_step s.formatting (fun f st => { st with formatting := f }) (g.styleD e)
        (acc_step s.span (fun sp st => { st with span := sp }) (g.styleD e)
          (acc_step s.alignment_v (fun a st => { st with alignment_v := a }) (g.styleD e)
            (acc_step s.alignment_h (fun a st => { st with alignment_h := a }) (g.styleD e)
              (acc_step s.padding (fun p st => { st with padding := p }) (g.styleD e)
                none)))) := by
    obtain ⟨t, p, b, bc, sp, ah, av, f⟩ := s
    cases p <;> cases ah <;> cases av <;> cases sp <;> cases f <;> rfl
  rw [hconv]
  obtain ⟨p1, p2, p3⟩ := sa5
  refine ⟨?_, ?_, ?_⟩
  · intro x hx
    rw [hs', p1 x hx]
  · intro hnone x
    rw [hs']
    exact p2 hnone x
  · intro st hst
    rw [hs']
    exact p3 st hst

/-- The two facts most proofs need, extracted: the accumulated value is
exactly the claim-side diff application. -/
theorem Grid.set_styles_main {g g' : Grid} {e : Entity} {s : Settings}
    (h : g.set e s = some g') :
    (∀ x, x ≠ e → g'.styles x = g.styles x) ∧
    (s.has_style_field = false → ∀ x, g'.styles x = g.styles x) ∧
    (s.has_style_field = true →
      g'.styles e = some (apply_style_diff (g.styleD e) s)) := by
  obtain ⟨p1, p2, p3⟩ := Grid.set_styles_after h
  refine ⟨p1, ?_, ?_⟩
  · intro hfalse
    apply p2
    rw [style_acc_eq, hfalse]
    rfl
  · intro htrue
    apply p3
    rw [style_acc_eq, htrue]
    rfl



/-! ## Claims C6 and C7: style resolution and the override discipline -/

/-- The grids reachable from construction through the public API. -/
inductive Reachable : Grid → Prop where
  | new (rows columns : Nat) : Reachable (Grid.new rows columns)
  | set {g g' : Grid} (entity : Entity) (settings : Settings) :
      Reachable g → g.set entity settings = some g' → Reachable g'
  | set_margin {g : Grid} (m : Margin) : Reachable g → Reachable (g.set_margin m)
  | add_horizontal_split {g g' : Grid} (row : Nat) :
      Reachable g → g.add_horizontal_split row = some g' → Reachable g'
  | add_vertical_split {g g' : Grid} (column : Nat) :
      Reachable g → g.add_vertical_split column = some g' → Reachable g'
  | add_grid_split {g g' : Grid} :
      Reachable g → g.add_grid_split = some g' → Reachable g'
  | clear_split_grid {g : Grid} : Reachable g → Reachable g.clear_split_grid
  | clear_overide_split_lines {g : Grid} : Reachable g → Reachable g.clear_overide_split_lines
  | override_split_line {g : Grid} (row : Nat) (line : Str) :
      Reachable g → Reachable (g.override_split_line row line)
  | set_text {g g' : Grid} (entity : Entity) (t : Str) :
      Reachable g → g.set_text entity t = some g' → Reachable g'
  | set_cell_borders {g g' : Grid} (border : Border) :
      Reachable g → g.set_cell_borders border = some g' → Reachable g'
  | extract {g g' : Grid} (sr er sc ec : Nat) :
      Reachable g → g.extract sr er sc ec = some g' → Reachable g'

/-- The construction invariant: a Global style entry exists. -/
def GlobalSome (g : Grid) : Prop := (g.styles Entity.Global).isSome = true

theorem Grid.set_global_some {g g' : Grid} {e : Entity} {s : Settings}
    (h : g.set e s = some g') (hg : GlobalSome g) : GlobalSome g' := by
  obtain ⟨p1, p2, p3⟩ := Grid.set_styles_main h
  by_cases he : Entity.Global = e
  · subst he
    cases hf : s.has_style_field with
    | false =>
      unfold GlobalSome
      rw [p2 hf Entity.Global]
      exact hg
    | true =>
      unfold GlobalSome
      rw [p3 hf]
      rfl
  · unfold GlobalSome
    rw [p1 Entity.Global he]
    exact hg

theorem reachable_global_some {g : Grid} (hg : Reachable g) : GlobalSome g := by
  induction hg with
  | new rows columns => rfl
  | set entity settings hr hset ih => exact Grid.set_global_some hset ih
  | set_margin m hr ih => exact ih
  | add_horizontal_split row hr hsplit ih =>
    unfold GlobalSome
    rw [Grid.add_horizontal_split_styles hsplit]
    exact ih
  | add_vertical_split column hr hsplit ih =>
    unfold GlobalSome
    rw [Grid.add_vertical_split_styles hsplit]
    exact ih
  | add_grid_split hr hsplit ih =>
    unfold Grid.add_grid_split at hsplit
    obtain ⟨g1, h1, h2⟩ := Option.bind_eq_some.mp hsplit
    unfold GlobalSome
    rw [foldlM_grid_preserves Grid.styles
      (fun a x b hb => Grid.add_vertical_split_styles hb) h2]
    rw [foldlM_grid_preserves Grid.styles
      (fun a x b hb => Grid.add_horizontal_split_styles hb) h1]
    exact ih
  | clear_split_grid hr ih => exact ih
  | clear_overide_split_lines hr ih => exact ih
  | override_split_line row line hr ih => exact ih
  | set_text entity t hr hset ih =>
    unfold GlobalSome
    rw [Grid.set_text_styles hset]
    exact ih
  | set_cell_borders border hr hset ih =>
    unfold Grid.set_cell_borders at hset
    obtain ⟨g1, h1, h2⟩ := Option.bind_eq_some.mp hset
    have hg1 : GlobalSome g1 := by
      unfold Grid.add_grid_split at h1
      obtain ⟨g0, ha, hb⟩ := Option.bind_eq_some.mp h1
      unfold GlobalSome
      rw [foldlM_grid_preserves Grid.styles
        (fun a x b hx => Grid.add_vertical_split_styles hx) hb]
      rw [foldlM_grid_preserves Grid.styles
        (fun a x b hx => Grid.add_horizontal_split_styles hx) ha]
      exact ih
    exact foldlM_grid_preserves_prop GlobalSome
      (fun a x b hb hp => foldlM_grid_preserves_prop GlobalSome
        (fun a2 x2 b2 hb2 hp2 => Grid.set_global_some hb2 hp2) hb hp) h2 hg1
  | extract sr er sc ec hr hext ih =>
    unfold Grid.extract at hext
    have hnew : GlobalSome (Grid.new (er - sr) (ec - sc)) := rfl
    exact foldlM_grid_preserves_prop GlobalSome
      (fun a x b hb hp => foldlM_grid_preserves_prop GlobalSome
        (fun a2 x2 b2 hb2 hp2 => by
          obtain ⟨st, hst, hset2⟩ := Option.bind_eq_some.mp hb2
          exact Grid.set_global_some hset2 hp2) hb hp) hext hnew

theorem option_or_isSome_right {α : Type} {a b : Option α} (h : b.isSome = true) :
    (a.or b).isSome = true := by
  cases a with
  | none => exact h
  | some v => rfl

/-- C6: style resolution returns the first stored override along the
fallback chain (Cell over Column over Row over Global for a cell, Row
over Global for a row, Column over Global for a column), and always
succeeds on a grid reachable from construction because a Global entry
exists. -/
theorem c6_style_resolution (g : Grid) (hg : Reachable g) :
    (∀ e, (g.style e).isSome = true) ∧
    (∀ r c, g.style (Entity.Cell r c) =
      ((g.styles (Entity.Cell r c)).or ((g.styles (Entity.Column c)).or
        ((g.styles (Entity.Row r)).or (g.styles Entity.Global))))) ∧
    (∀ r, g.style (Entity.Row r) = (g.styles (Entity.Row r)).or (g.styles Entity.Global)) ∧
    (∀ c, g.style (Entity.Column c) =
      (g.styles (Entity.Column c)).or (g.styles Entity.Global)) ∧
    g.style Entity.Global = g.styles Entity.Global := by
  have hglob : GlobalSome g := reachable_global_some hg
  have hcell : ∀ r c, g.style (Entity.Cell r c) =
      ((g.styles (Entity.Cell r c)).or ((g.styles (Entity.Column c)).or
        ((g.styles (Entity.Row r)).or (g.styles Entity.Global)))) := by
    intro r c
    simp only [Grid.style, List.findSome?_cons, List.findSome?_nil]
    cases g.styles (Entity.Cell r c) <;> cases g.styles (Entity.Column c) <;>
      cases g.styles (Entity.Row r) <;> cases g.styles Entity.Global <;> rfl
  have hrow : ∀ r, g.style (Entity.Row r) =
      (g.styles (Entity.Row r)).or (g.styles Entity.Global) := by
    intro r
    simp only [Grid.style, List.findSome?_cons, List.findSome?_nil]
    cases g.styles (Entity.Row r) <;> cases g.styles Entity.Global <;> rfl
  have hcol : ∀ c, g.style (Entity.Column c) =
      (g.styles (Entity.Column c)).or (g.styles Entity.Global) := by
    intro c
    simp only [Grid.style, List.findSome?_cons, List.findSome?_nil]
    cases g.styles (Entity.Column c) <;> cases g.styles Entity.Global <;> rfl
  have hself : g.style Entity.Global = g.styles Entity.Global := by
    simp only [Grid.style, List.findSome?_cons, List.findSome?_nil]
    cases g.styles Entity.Global <;> rfl
  refine ⟨?_, hcell, hrow, hcol, hself⟩
  intro e
  cases e with
  | Global =>
    rw [hself]
    exact hglob
  | Column c =>
    rw [hcol]
    exact option_or_isSome_right hglob
  | Row r =>
    rw [hrow]
    exact option_or_isSome_right hglob
  | Cell r c =>
    rw [hcell]
    exact option_or_isSome_right (option_or_isSome_right (option_or_isSome_right hglob))

/-- C6 witness: resolution of a cell of a freshly constructed grid. -/
theorem c6_style_resolution_witness :
    ((Grid.new 2 2).style (Entity.Cell 1 1)).isSome = true :=
  (c6_style_resolution (Grid.new 2 2) (Reachable.new 2 2)).1 (Entity.Cell 1 1)

/-- C7: when set applies a diff to an entity with no stored override, it
first clones the entity's currently-resolved style as the override base
and overwrites only the present fields (apply_style_diff); and once an
override is materialized for an entity, a later update to the broader
Global entity leaves that entity's resolved style unchanged. -/
theorem c7_materialize_and_frame :
    (∀ (g g' : Grid) (e : Entity) (s : Settings) (base : Style),
      g.styles e = none → g.style e = some base → g.set e s = some g' →
      s.has_style_field = true →
      g'.styles e = some (apply_style_diff base s)) ∧
    (∀ (g g'' : Grid) (e : Entity) (d : Settings) (st : Style),
      g.styles e = some st → e ≠ Entity.Global →
      g.set Entity.Global d = some g'' →
      g.style e = some st ∧ g''.style e = some st) := by
  constructor
  · intro g g' e s base hnone hres hset hfield
    obtain ⟨p1, p2, p3⟩ := Grid.set_styles_main hset
    have hbase : g.styleD e = base := by simp [Grid.styleD, hres]
    rw [p3 hfield, hbase]
  · intro g g'' e d st hover hne hset
    obtain ⟨p1, p2, p3⟩ := Grid.set_styles_main hset
    have h1 : g''.styles e = some st := by
      rw [p1 e hne]
      exact hover
    exact ⟨Grid.style_of_self hover, Grid.style_of_self h1⟩

/-- A concrete grid with a materialized cell override (span 3). -/
def exC7_g1 : Grid :=
  ((Grid.new 1 1).set (Entity.Cell 0 0) (Settings.new.with_span 3)).getD (Grid.new 1 1)

/-- The same grid after a later Global update (span 7). -/
def exC7_g2 : Grid :=
  (exC7_g1.set Entity.Global (Settings.new.with_span 7)).getD exC7_g1

/-- C7 witness: materializing a span-3 override on a fresh 1x1 grid and
then updating Global to span 7 leaves the cell's resolved style at
span 3. -/
theorem c7_materialize_and_frame_witness :
    (Grid.new 1 1).styles (Entity.Cell 0 0) = none ∧
    exC7_g1.styles (Entity.Cell 0 0) =
      some (apply_style_diff Style.default (Settings.new.with_span 3)) ∧
    exC7_g2.style (Entity.Cell 0 0) =
      some (apply_style_diff Style.default (Settings.new.with_span 3)) := by
  refine ⟨rfl, ?_, ?_⟩
  · exact c7_materialize_and_frame.1 (Grid.new 1 1) exC7_g1 (Entity.Cell 0 0)
      (Settings.new.with_span 3) Style.default rfl rfl rfl rfl
  · exact (c7_materialize_and_frame.2 exC7_g1 exC7_g2 (Entity.Cell 0 0)
      (Settings.new.with_span 7) (apply_style_diff Style.default (Settings.new.with_span 3))
      rfl (by decide) rfl).2



/-! ## Claim C3: extraction renumbers from (0,0) with auto-creation on -/

/-- Everything of a grid except the border store, as one projection. -/
def Grid.no_borders_view (g : Grid) :
    (Nat × Nat) × (Nat → Nat → Str) × (Entity → Option Style) × Margin × (Nat → Option Str) :=
  (g.size, g.cells, g.styles, g.margin, g.override_split_lines)

/-- Everything of a grid except the styles map. -/
def Grid.no_styles_view (g : Grid) :
    (Nat × Nat) × (Nat → Nat → Str) × Borders × Margin × (Nat → Option Str) :=
  (g.size, g.cells, g.borders, g.margin, g.override_split_lines)

/-- Everything of a grid except the cell texts. -/
def Grid.no_cells_view (g : Grid) :
    (Nat × Nat) × (Entity → Option Style) × Borders × Margin × (Nat → Option Str) :=
  (g.size, g.styles, g.borders, g.margin, g.override_split_lines)

theorem Grid.add_horizontal_split_view {g g' : Grid} {r : Nat}
    (h : g.add_horizontal_split r = some g') : g'.no_borders_view = g.no_borders_view := by
  unfold Grid.add_horizontal_split at h
  split at h
  · obtain rfl := Option.some.inj h
    rfl
  · cases h

theorem Grid.add_vertical_split_view {g g' : Grid} {c : Nat}
    (h : g.add_vertical_split c = some g') : g'.no_borders_view = g.no_borders_view := by
  unfold Grid.add_vertical_split at h
  split at h
  · obtain rfl := Option.some.inj h
    rfl
  · cases h

theorem Grid.apply_column_symbol_view {g g' : Grid} {pos : Nat × Nat} {oc : Option Char}
    (h : g.apply_column_symbol pos oc = some g') : g'.no_borders_view = g.no_borders_view := by
  unfold Grid.apply_column_symbol at h
  split at h
  · obtain rfl := Option.some.inj h
    rfl
  · split at h
    · obtain rfl := Option.some.inj h
      rfl
    · cases h

theorem Grid.apply_row_symbol_view {g g' : Grid} {pos : Nat × Nat} {oc : Option Char}
    (h : g.apply_row_symbol pos oc = some g') : g'.no_borders_view = g.no_borders_view := by
  unfold Grid.apply_row_symbol at h
  split at h
  · obtain rfl := Option.some.inj h
    rfl
  · split at h
    · obtain rfl := Option.some.inj h
      rfl
    · cases h

theorem Grid.apply_intersection_view {g g' : Grid} {pos : Nat × Nat} {oc : Option Char}
    (h : g.apply_intersection pos oc = some g') : g'.no_borders_view = g.no_borders_view := by
  unfold Grid.apply_intersection at h
  split at h
  · obtain rfl := Option.some.inj h
    rfl
  · split at h
    · obtain rfl := Option.some.inj h
      rfl
    · cases h

theorem Grid.set_border_for_cell_view {g g' : Grid} {r c : Nat} {bd : Border}
    (h : g.set_border_for_cell r c bd = some g') : g'.no_borders_view = g.no_borders_view := by
  unfold Grid.set_border_for_cell at h
  obtain ⟨g1, h1, h⟩ := Option.bind_eq_some.mp h
  obtain ⟨g2, h2, h⟩ := Option.bind_eq_some.mp h
  obtain ⟨g3, h3, h⟩ := Option.bind_eq_some.mp h
  obtain ⟨g4, h4, h⟩ := Option.bind_eq_some.mp h
  obtain ⟨g5, h5, h⟩ := Option.bind_eq_some.mp h
  obtain ⟨g6, h6, h⟩ := Option.bind_eq_some.mp h
  obtain ⟨g7, h7, h⟩ := Option.bind_eq_some.mp h
  obtain ⟨g8, h8, h⟩ := Option.bind_eq_some.mp h
  obtain rfl := Option.some.inj h
  rw [Grid.apply_intersection_view h8, Grid.apply_intersection_view h7,
    Grid.apply_intersection_view h6, Grid.apply_intersection_view h5,
    Grid.apply_row_symbol_view h4, Grid.apply_row_symbol_view h3,
    Grid.apply_column_symbol_view h2, Grid.apply_column_symbol_view h1]

theorem Grid.set_border_view {g g' : Grid} {e : Entity} {bd : Border}
    (h : g.set_border e bd = some g') : g'.no_borders_view = g.no_borders_view := by
  cases e with
  | Global =>
    exact foldlM_grid_preserves Grid.no_borders_view (fun a x b hb =>
      foldlM_grid_preserves Grid.no_borders_view
        (fun a2 x2 b2 hb2 => Grid.set_border_for_cell_view hb2) hb) h
  | Column column =>
    exact foldlM_grid_preserves Grid.no_borders_view
      (fun a x b hb => Grid.set_border_for_cell_view hb) h
  | Row row =>
    exact foldlM_grid_preserves Grid.no_borders_view
      (fun a x b hb => Grid.set_border_for_cell_view hb) h
  | Cell row column => exact Grid.set_border_for_cell_view h

theorem Grid.add_split_lines_for_cell_view {g g' : Grid} {r c : Nat} {bd : Border}
    (h : g.add_split_lines_for_cell r c bd = some g') :
    g'.no_borders_view = g.no_borders_view := by
  unfold Grid.add_split_lines_for_cell at h
  obtain ⟨g1, h1, h⟩ := Option.bind_eq_some.mp h
  obtain ⟨g2, h2, h⟩ := Option.bind_eq_some.mp h
  obtain ⟨g3, h3, h⟩ := Option.bind_eq_some.mp h
  obtain ⟨g4, h4, h⟩ := Option.bind_eq_some.mp h
  obtain rfl := Option.some.inj h
  have step : ∀ {a b : Grid} (cond : Bool) (act : Grid → Option Grid),
      (∀ a2 b2, act a2 = some b2 → b2.no_borders_view = a2.no_borders_view) →
      (if cond then act a else some a) = some b → b.no_borders_view = a.no_borders_view := by
    intro a b cond act hact hif
    cases cond with
    | true => exact hact a b hif
    | false =>
      obtain rfl := Option.some.inj hif
      rfl
  rw [step _ _ (fun a2 b2 hb => Grid.add_horizontal_split_view hb) h4,
    step _ _ (fun a2 b2 hb => Grid.add_horizontal_split_view hb) h3,
    step _ _ (fun a2 b2 hb => Grid.add_vertical_split_view hb) h2,
    step _ _ (fun a2 b2 hb => Grid.add_vertical_split_view hb) h1]

theorem Grid.add_split_lines_view {g g' : Grid} {e : Entity} {bd : Border}
    (h : g.add_split_lines e bd = some g') : g'.no_borders_view = g.no_borders_view := by
  cases e with
  | Global =>
    exact foldlM_grid_preserves Grid.no_borders_view (fun a x b hb =>
      foldlM_grid_preserves Grid.no_borders_view
        (fun a2 x2 b2 hb2 => Grid.add_split_lines_for_cell_view hb2) hb) h
  | Column column =>
    exact foldlM_grid_preserves Grid.no_borders_view
      (fun a x b hb => Grid.add_split_lines_for_cell_view hb) h
  | Row row =>
    exact foldlM_grid_preserves Grid.no_borders_view
      (fun a x b hb => Grid.add_split_lines_for_cell_view hb) h
  | Cell row column => exact Grid.add_split_lines_for_cell_view h

theorem Grid.border_step_view {g g' : Grid} {e : Entity} {s : Settings}
    (h : g.border_step e s = some g') : g'.no_borders_view = g.no_borders_view := by
  unfold Grid.border_step at h
  cases hb : s.border with
  | none =>
    rw [hb] at h
    obtain rfl := Option.some.inj h
    rfl
  | some border =>
    rw [hb] at h
    obtain ⟨g1, h1, h2⟩ := Option.bind_eq_some.mp h
    have hs1 : g1.no_borders_view = g.no_borders_view := by
      cases hc : s.border_split_check with
      | true =>
        rw [hc] at h1
        exact Grid.add_split_lines_view (by simpa using h1)
      | false =>
        rw [hc] at h1
        simp only [Bool.false_eq_true, if_false] at h1
        obtain rfl := Option.some.inj h1
        rfl
    rw [Grid.set_border_view h2, hs1]

theorem Grid.opt_field_step_view {α : Type} {g g' : Grid} {e : Entity} {o : Option α}
    {f : α → Style → Style} (h : g.opt_field_step e o f = some g') :
    g'.no_styles_view = g.no_styles_view := by
  cases o with
  | none =>
    simp only [Grid.opt_field_step] at h
    obtain rfl := Option.some.inj h
    rfl
  | some v =>
    simp only [Grid.opt_field_step, Grid.style_mut_apply] at h
    cases hse : g.styles e with
    | some st =>
      rw [hse] at h
      obtain rfl := Option.some.inj h
      rfl
    | none =>
      rw [hse] at h
      obtain ⟨base, hb, hg'⟩ := Option.map_eq_some'.mp h
      subst hg'
      rfl

theorem Grid.set_text_view {g g' : Grid} {e : Entity} {t : Str}
    (h : g.set_text e t = some g') : g'.no_cells_view = g.no_cells_view := by
  have hc : ∀ (a : Grid) (r c : Nat), (a.set_cell_text r c t).no_cells_view = a.no_cells_view :=
    fun _ _ _ => rfl
  cases e with
  | Global =>
    simp only [Grid.set_text] at h
    obtain rfl := Option.some.inj h
    exact foldl_grid_preserves Grid.no_cells_view
      (fun a r => foldl_grid_preserves Grid.no_cells_view (fun b c => hc b r c) _ a) _ g
  | Column column =>
    simp only [Grid.set_text] at h
    split at h
    · obtain rfl := Option.some.inj h
      exact foldl_grid_preserves Grid.no_cells_view (fun a r => hc a r column) _ g
    · cases h
  | Row row =>
    simp only [Grid.set_text] at h
    split at h
    · obtain rfl := Option.some.inj h
      exact foldl_grid_preserves Grid.no_cells_view (fun a c => hc a row c) _ g
    · cases h
  | Cell row column =>
    simp only [Grid.set_text] at h
    split at h
    · obtain rfl := Option.some.inj h
      rfl
    · cases h

theorem Grid.text_step_view {g g' : Grid} {e : Entity} {s : Settings}
    (h : g.text_step e s = some g') : g'.no_cells_view = g.no_cells_view := by
  unfold Grid.text_step at h
  cases ht : s.text with
  | none =>
    rw [ht] at h
    obtain rfl := Option.some.inj h
    rfl
  | some t =>
    rw [ht] at h
    exact Grid.set_text_view h

theorem Grid.opt_field_step_cells {α : Type} {g g' : Grid} {e : Entity} {o : Option α}
    {f : α → Style → Style} (h : g.opt_field_step e o f = some g') : g'.cells = g.cells :=
  congrArg (fun q => q.2.1) (Grid.opt_field_step_view h)

theorem Grid.border_step_cells {g g' : Grid} {e : Entity} {s : Settings}
    (h : g.border_step e s = some g') : g'.cells = g.cells :=
  congrArg (fun q => q.2.1) (Grid.border_step_view h)

theorem Grid.text_step_shape {g g' : Grid} {e : Entity} {s : Settings}
    (h : g.text_step e s = some g') :
    g'.size = g.size ∧ g'.margin = g.margin ∧
      g'.override_split_lines = g.override_split_lines :=
  ⟨congrArg (fun q => q.1) (Grid.text_step_view h),
   congrArg (fun q => q.2.2.2.1) (Grid.text_step_view h),
   congrArg (fun q => q.2.2.2.2) (Grid.text_step_view h)⟩

theorem Grid.opt_field_step_shape {α : Type} {g g' : Grid} {e : Entity} {o : Option α}
    {f : α → Style → Style} (h : g.opt_field_step e o f = some g') :
    g'.size = g.size ∧ g'.margin = g.margin ∧
      g'.override_split_lines = g.override_split_lines :=
  ⟨congrArg (fun q => q.1) (Grid.opt_field_step_view h),
   congrArg (fun q => q.2.2.2.1) (Grid.opt_field_step_view h),
   congrArg (fun q => q.2.2.2.2) (Grid.opt_field_step_view h)⟩

theorem Grid.border_step_shape {g g' : Grid} {e : Entity} {s : Settings}
    (h : g.border_step e s = some g') :
    g'.size = g.size ∧ g'.margin = g.margin ∧
      g'.override_split_lines = g.override_split_lines :=
  ⟨congrArg (fun q => q.1) (Grid.border_step_view h),
   congrArg (fun q => q.2.2.2.1) (Grid.border_step_view h),
   congrArg (fun q => q.2.2.2.2) (Grid.border_step_view h)⟩

/-- Grid.set never changes the size, the margin, or the split-line
overrides. -/
theorem Grid.set_shape {g g' : Grid} {e : Entity} {s : Settings} (h : g.set e s = some g') :
    g'.size = g.size ∧ g'.margin = g.margin ∧
      g'.override_split_lines = g.override_split_lines := by
  unfold Grid.set at h
  obtain ⟨g1, h1, h⟩ := Option.bind_eq_some.mp h
  obtain ⟨g2, h2, h⟩ := Option.bind_eq_some.mp h
  obtain ⟨g3, h3, h⟩ := Option.bind_eq_some.mp h
  obtain ⟨g4, h4, h⟩ := Option.bind_eq_some.mp h
  obtain ⟨g5, h5, h⟩ := Option.bind_eq_some.mp h
  obtain ⟨g6, h6, h⟩ := Option.bind_eq_some.mp h
  obtain ⟨a1, b1, c1⟩ := Grid.text_step_shape h1
  obtain ⟨a2, b2, c2⟩ := Grid.opt_field_step_shape h2
  obtain ⟨a3, b3, c3⟩ := Grid.opt_field_step_shape h3
  obtain ⟨a4, b4, c4⟩ := Grid.opt_field_step_shape h4
  obtain ⟨a5, b5, c5⟩ := Grid.opt_field_step_shape h5
  obtain ⟨a6, b6, c6⟩ := Grid.opt_field_step_shape h6
  obtain ⟨a7, b7, c7⟩ := Grid.border_step_shape h
  refine ⟨?_, ?_, ?_⟩
  · rw [a7, a6, a5, a4, a3, a2, a1]
  · rw [b7, b6, b5, b4, b3, b2, b1]
  · rw [c7, c6, c5, c4, c3, c2, c1]

/-- The cell effect of Grid.set at a single cell with a text present:
exactly the target cell text changes (and the indexing stays in
bounds). -/
theorem Grid.set_cell_effect {g g' : Grid} {r c : Nat} {s : Settings} {t : Str}
    (ht : s.text = some t) (h : g.set (Entity.Cell r c) s = some g') :
    r < g.count_rows ∧ c < g.count_columns ∧
      ∀ a b, g'.cells a b = if a = r ∧ b = c then t else g.cells a b := by
  unfold Grid.set at h
  obtain ⟨g1, h1, hA⟩ := Option.bind_eq_some.mp h
  obtain ⟨g2, h2, hB⟩ := Option.bind_eq_some.mp hA
  obtain ⟨g3, h3, hC⟩ := Option.bind_eq_some.mp hB
  obtain ⟨g4, h4, hD⟩ := Option.bind_eq_some.mp hC
  obtain ⟨g5, h5, hE⟩ := Option.bind_eq_some.mp hD
  obtain ⟨g6, h6, hF⟩ := Option.bind_eq_some.mp hE
  unfold Grid.text_step at h1
  rw [ht] at h1
  simp only [Grid.set_text] at h1
  by_cases hcond : r < g.count_rows ∧ c < g.count_columns
  · rw [if_pos hcond] at h1
    obtain rfl := Option.some.inj h1
    have hc6 : g6.cells = (g.set_cell_text r c t).cells := by
      rw [Grid.opt_field_step_cells h6, Grid.opt_field_step_cells h5,
        Grid.opt_field_step_cells h4, Grid.opt_field_step_cells h3,
        Grid.opt_field_step_cells h2]
    have hcf : g'.cells = g6.cells := Grid.border_step_cells hF
    refine ⟨hcond.1, hcond.2, ?_⟩
    intro a b
    rw [hcf, hc6]
    rfl
  · rw [if_neg hcond] at h1
    cases h1

/-- Iterating an option fold over List.range with an indexed invariant. -/
theorem foldlM_range_inv (P : Nat → Grid → Prop) (f : Grid → Nat → Option Grid)
    (hstep : ∀ k a b, P k a → f a k = some b → P (k + 1) b) :
    ∀ (n : Nat) {g g' : Grid}, (List.range n).foldlM f g = some g' → P 0 g → P n g' := by
  intro n
  induction n with
  | zero =>
    intro g g' h hp
    obtain rfl := Option.some.inj h
    exact hp
  | succ m ih =>
    intro g g' h hp
    rw [List.range_succ, List.foldlM_append] at h
    obtain ⟨b, hb, hlast⟩ := Option.bind_eq_some.mp h
    rw [List.foldlM_cons] at hlast
    obtain ⟨g2, hg2, hpure⟩ := Option.bind_eq_some.mp hlast
    rw [List.foldlM_nil] at hpure
    obtain rfl := Option.some.inj hpure
    exact hstep m b g2 (ih hb hp) hg2

/-- The style data extract carries over for one cell: the span, the
padding and the alignments of the resolved source style; formatting is
not part of get_settings and stays at the default. -/
def extract_style (st : Style) : Style :=
  { span := st.span, padding := st.padding, alignment_h := st.alignment_h,
    alignment_v := st.alignment_v, formatting := Style.default.formatting }

/-- Invariant of extract's copy loop: rows below i are fully copied, row
i is copied up to column j, everything else still holds the fresh-grid
content; only Cell entities ever acquire overrides. -/
def ExtractInv (g : Grid) (sr sc C i j : Nat) (acc : Grid) : Prop :=
  (∀ a b, acc.cells a b =
    if a < i ∧ b < C ∨ a = i ∧ b < j then g.cells (sr + a) (sc + b) else []) ∧
  (∀ a b, acc.styles (Entity.Cell a b) =
    if a < i ∧ b < C ∨ a = i ∧ b < j
    then some (extract_style (g.styleD (Entity.Cell (sr + a) (sc + b)))) else none) ∧
  (∀ c, acc.styles (Entity.Column c) = none) ∧
  (∀ r, acc.styles (Entity.Row r) = none) ∧
  acc.styles Entity.Global = some Style.default

theorem extract_inv_start (g : Grid) (sr sc C R C2 : Nat) :
    ExtractInv g sr sc C 0 0 (Grid.new R C2) := by
  refine ⟨?_, ?_, ?_, ?_, ?_⟩
  · intro a b
    rw [if_neg (by omega)]
    rfl
  · intro a b
    rw [if_neg (by omega)]
    rfl
  · intro c
    rfl
  · intro r
    rfl
  · rfl

theorem extract_inv_shift {g : Grid} {sr sc C i : Nat} {acc : Grid}
    (h : ExtractInv g sr sc C i C acc) : ExtractInv g sr sc C (i + 1) 0 acc := by
  obtain ⟨h1, h2, h3, h4, h5⟩ := h
  refine ⟨?_, ?_, h3, h4, h5⟩
  · intro a b
    rw [h1 a b]
    exact if_congr (by omega) rfl rfl
  · intro a b
    rw [h2 a b]
    exact if_congr (by omega) rfl rfl

theorem extract_inv_step {g : Grid} {sr sc C i : Nat} (j : Nat) {acc acc' : Grid}
    (hinv : ExtractInv g sr sc C i j acc)
    (h : (g.get_settings (sr + i) (sc + j)).bind
      (fun settings => acc.set (Entity.Cell i j) (settings.border_restriction false)) =
        some acc') :
    ExtractInv g sr sc C i (j + 1) acc' := by
  obtain ⟨hcells, hcellsty, hcol, hrow, hglob⟩ := hinv
  obtain ⟨s, hs, hset⟩ := Option.bind_eq_some.mp h
  simp only [Grid.get_settings] at hs
  obtain ⟨style, hstyle, hs⟩ := Option.bind_eq_some.mp hs
  obtain ⟨border, hborder, hs⟩ := Option.bind_eq_some.mp hs
  have hs' := Option.some.inj hs
  have htext : (s.border_restriction false).text = some (g.cells (sr + i) (sc + j)) := by
    rw [← hs']
    rfl
  have hhf : (s.border_restriction false).has_style_field = true := by
    rw [← hs']
    rfl
  have hdiff : ∀ base : Style, apply_style_diff base (s.border_restriction false) =
      { span := style.span, padding := style.padding, alignment_h := style.alignment_h,
        alignment_v := style.alignment_v, formatting := base.formatting } := by
    intro base
    rw [← hs']
    rfl
  obtain ⟨hr, hc2, hcupd⟩ := Grid.set_cell_effect htext hset
  obtain ⟨p1, _, p3⟩ := Grid.set_styles_main hset
  have hcellnone : acc.styles (Entity.Cell i j) = none := by
    rw [hcellsty i j, if_neg (by omega)]
  have hbase : acc.styleD (Entity.Cell i j) = Style.default := by
    simp [Grid.styleD, Grid.style, List.findSome?_cons, List.findSome?_nil,
      hcellnone, hcol j, hrow i, hglob]
  have hgd : g.styleD (Entity.Cell (sr + i) (sc + j)) = style := by
    simp [Grid.styleD, hstyle]
  have hstyij : acc'.styles (Entity.Cell i j) =
      some (extract_style (g.styleD (Entity.Cell (sr + i) (sc + j)))) := by
    rw [p3 hhf, hbase, hdiff Style.default, hgd]
    rfl
  refine ⟨?_, ?_, ?_, ?_, ?_⟩
  · intro a b
    rw [hcupd a b]
    by_cases hab : a = i ∧ b = j
    · obtain ⟨rfl, rfl⟩ := hab
      rw [if_pos ⟨rfl, rfl⟩, if_pos (Or.inr ⟨rfl, Nat.lt_succ_self b⟩)]
    · rw [if_neg hab, hcells a b]
      exact if_congr (by omega) rfl rfl
  · intro a b
    by_cases hab : a = i ∧ b = j
    · obtain ⟨rfl, rfl⟩ := hab
      rw [if_pos (Or.inr ⟨rfl, Nat.lt_succ_self b⟩)]
      exact hstyij
    · have hne : Entity.Cell a b ≠ Entity.Cell i j := by
        intro hcc
        injection hcc with e1 e2
        exact hab ⟨e1, e2⟩
      rw [p1 _ hne, hcellsty a b]
      exact if_congr (by omega) rfl rfl
  · intro c
    rw [p1 _ (by intro hcc; cases hcc)]
    exact hcol c
  · intro r
    rw [p1 _ (by intro hcc; cases hcc)]
    exact hrow r
  · rw [p1 _ (by intro hcc; cases hcc)]
    exact hglob

/-- The full characterization of a successful extraction (shared by the
extraction claims): the selected size, default margin, no overrides,
cells and cell styles renumbered from (0, 0), and the auto-creation
check on. -/
theorem Grid.extract_main (g g' : Grid) (sr er sc ec : Nat)
    (h : g.extract sr er sc ec = some g') :
    (∀ s : Settings, (s.border_restriction false).border_split_check = true) ∧
    g'.size = (er - sr, ec - sc) ∧
    g'.margin = Margin.default ∧
    (∀ r, g'.override_split_lines r = none) ∧
    (∀ i j, g'.cells i j =
      if i < er - sr ∧ j < ec - sc then g.cells (sr + i) (sc + j) else []) ∧
    (∀ i j, g'.styles (Entity.Cell i j) =
      if i < er - sr ∧ j < ec - sc
      then some (extract_style (g.styleD (Entity.Cell (sr + i) (sc + j)))) else none) := by
  simp only [Grid.extract] at h
  have hfin : ExtractInv g sr sc (ec - sc) (er - sr) 0 g' := by
    refine foldlM_range_inv (fun i acc => ExtractInv g sr sc (ec - sc) i 0 acc) _
      ?_ (er - sr) h (extract_inv_start g sr sc (ec - sc) (er - sr) (ec - sc))
    intro k a b hp hf
    exact extract_inv_shift (foldlM_range_inv
      (fun j acc => ExtractInv g sr sc (ec - sc) k j acc) _
      (fun j2 a2 b2 hp2 hf2 => extract_inv_step j2 hp2 hf2) (ec - sc) hf hp)
  have hshape : (g'.size, g'.margin, g'.override_split_lines) =
      ((Grid.new (er - sr) (ec - sc)).size, (Grid.new (er - sr) (ec - sc)).margin,
        (Grid.new (er - sr) (ec - sc)).override_split_lines) := by
    refine foldlM_grid_preserves
      (fun gg : Grid => (gg.size, gg.margin, gg.override_split_lines)) ?_ h
    intro a x b hb
    refine foldlM_grid_preserves
      (fun gg : Grid => (gg.size, gg.margin, gg.override_split_lines)) ?_ hb
    intro a2 x2 b2 hb2
    obtain ⟨s2, hs2, hset2⟩ := Option.bind_eq_some.mp hb2
    obtain ⟨e1, e2, e3⟩ := Grid.set_shape hset2
    show (b2.size, b2.margin, b2.override_split_lines) =
      (a2.size, a2.margin, a2.override_split_lines)
    rw [e1, e2, e3]
  obtain ⟨hc, hsty, _, _, _⟩ := hfin
  refine ⟨fun _ => rfl, ?_, ?_, ?_, ?_, ?_⟩
  · exact congrArg (fun q => q.1) hshape
  · exact congrArg (fun q => q.2.1) hshape
  · exact fun r => congrFun (congrArg (fun q => q.2.2) hshape) r
  · intro i j
    rw [hc i j]
    exact if_congr (by omega) rfl rfl
  · intro i j
    rw [hsty i j]
    exact if_congr (by omega) rfl rfl

/-- C3 (amended): a successful extraction yields a grid of the selected
size with a default margin, no split-line overrides, and every cell
text and every cell style carried over renumbered from (0, 0), and the
per-cell copy runs with the border-creation check switched ON
(border_restriction false sets border_split_check), the opposite of the
strict mode the spec describes. -/
theorem c3_extract_renumber_nonstrict (g g' : Grid) (sr er sc ec : Nat)
    (h : g.extract sr er sc ec = some g') :
    (∀ s : Settings, (Settings.border_restriction s false).border_split_check = true) ∧
    g'.size = (er - sr, ec - sc) ∧
    g'.margin = Margin.default ∧
    (∀ r, g'.override_split_lines r = none) ∧
    (∀ i j, g'.cells i j =
      if i < er - sr ∧ j < ec - sc then g.cells (sr + i) (sc + j) else []) ∧
    (∀ i j, g'.styles (Entity.Cell i j) =
      if i < er - sr ∧ j < ec - sc
      then some (extract_style (g.styleD (Entity.Cell (sr + i) (sc + j)))) else none) :=
  Grid.extract_main g g' sr er sc ec h

/-- A concrete 1x1 source grid carrying the full default ASCII border. -/
def exC3_src : Grid :=
  ((Grid.new 1 1).set_cell_borders DEFAULT_CELL_STYLE).getD (Grid.new 1 1)

/-- Its extraction over the full range. -/
def exC3_ext : Grid := (exC3_src.extract 0 1 0 1).getD exC3_src

/-- C3 witness: the amended theorem applied to the concrete bordered
1x1 grid. -/
theorem c3_extract_renumber_nonstrict_witness :
    exC3_ext.size = (1, 1) ∧
    exC3_ext.cells 0 0 = if 0 < 1 ∧ 0 < 1 then exC3_src.cells 0 0 else [] := by
  have happ := c3_extract_renumber_nonstrict exC3_src exC3_ext 0 1 0 1 rfl
  exact ⟨happ.2.1, happ.2.2.2.2.1 0 0⟩

/-- SPEC-SIDE definition: extraction as the spec words it, with border
auto-creation disabled (strict mode, border_restriction true), for
comparison against the code's Grid.extract. -/
def Grid.extract_spec_strict (g : Grid) (start_row end_row start_column end_column : Nat) :
    Option Grid :=
  let new_count_rows := end_row - start_row
  let new_count_columns := end_column - start_column
  (List.range new_count_rows).foldlM (fun ng new_row =>
    (List.range new_count_columns).foldlM (fun ng2 new_column => do
      let settings ← g.get_settings (start_row + new_row) (start_column + new_column)
      ng2.set (Entity.Cell new_row new_column) (settings.border_restriction true)) ng)
    (Grid.new new_count_rows new_count_columns)

/-- C3 counterexample: on a bordered 1x1 grid, the code's extraction
succeeds and the extracted grid HAS auto-created split lines (row 0 and
column 0 boundaries present), while the strict-mode extraction the spec
describes panics (none): the fresh target grid has no split lines and
set_border's unwraps fail on every one of them. -/
theorem c3_strict_mode_counterexample :
    (Grid.new 1 1).set_cell_borders DEFAULT_CELL_STYLE = some exC3_src ∧
    ((exC3_src.extract 0 1 0 1).map fun gg =>
      ((gg.borders.horizontal 0).isSome, (gg.borders.vertical 0).isSome)) =
        some (true, true) ∧
    exC3_src.extract_spec_strict 0 1 0 1 = none :=
  ⟨rfl, rfl, rfl⟩



/-! ## The renderer (impl Display for Grid and its helpers) -/

/-- Rust char::is_whitespace (the Unicode White_Space property). -/
def rust_is_whitespace (c : Char) : Bool :=
  (0x09 ≤ c.val && c.val ≤ 0x0D) || c.val == 0x20 || c.val == 0x85 || c.val == 0xA0 ||
  c.val == 0x1680 || (0x2000 ≤ c.val && c.val ≤ 0x200A) || c.val == 0x2028 ||
  c.val == 0x2029 || c.val == 0x202F || c.val == 0x205F || c.val == 0x3000

/-- Rust str::trim: strip whitespace from both ends. -/
def rust_trim (s : Str) : Str :=
  ((s.dropWhile rust_is_whitespace).reverse.dropWhile rust_is_whitespace).reverse

/-- write_option: a present character prints itself, an absent one
nothing. -/
def write_option (oc : Option Char) : Str :=
  match oc with
  | some c => [c]
  | none => []

/-- repeat_char: n copies of the character. -/
def repeat_char (c : Char) (n : Nat) : Str := List.replicate n c

/-- AlignmentHorizontal::align.  The Rust subtraction width - text_width
would panic on underflow; every call passes a width at least the text
width, and the Nat model truncates. -/
def AlignmentHorizontal.align (a : AlignmentHorizontal) (text : Str) (width : Nat) : Str :=
  let text_width := string_width text
  let diff := width - text_width
  match a with
  | AlignmentHorizontal.Left => text ++ List.replicate diff ' '
  | AlignmentHorizontal.Right => List.replicate diff ' ' ++ text
  | AlignmentHorizontal.Center =>
    let left := diff / 2
    let right := diff - left
    List.replicate left ' ' ++ text ++ List.replicate right ' '

/-- AlignmentHorizontal::align_with_max_width: align against the widest
line of the cell rather than the cell width. -/
def AlignmentHorizontal.align_with_max_width (a : AlignmentHorizontal) (text : Str)
    (width max_text_width : Nat) : Str :=
  let max_diff := width - max_text_width
  let text_width := string_width text
  let diff := width - text_width
  match a with
  | AlignmentHorizontal.Left => text ++ List.replicate diff ' '
  | AlignmentHorizontal.Right =>
    List.replicate max_diff ' ' ++ text ++ List.replicate (diff - max_diff) ' '
  | AlignmentHorizontal.Center =>
    let left := max_diff / 2
    List.replicate left ' ' ++ text ++ List.replicate (diff - left) ' '

/-- AlignmentVertical::top_ident (sic). -/
def AlignmentVertical.top_ident (a : AlignmentVertical) (height real_height : Nat) : Nat :=
  match a with
  | AlignmentVertical.Top => 0
  | AlignmentVertical.Bottom => height - real_height
  | AlignmentVertical.Center => (height - real_height) / 2

/-- skip_empty_lines: drop blank (whitespace-only) lines at both ends of
the cell content. -/
def skip_empty_lines (cell : List Str) : List Str :=
  let count_lines := cell.length
  let count_empty_lines_before_text :=
    (cell.takeWhile fun l => (rust_trim l).isEmpty).length
  if count_empty_lines_before_text = count_lines then []
  else
    let empty_lines_at_end := (cell.reverse.takeWhile fun l => (rust_trim l).isEmpty).length
    let text_start_pos := count_empty_lines_before_text
    let text_end_pos := cell.length - empty_lines_at_end
    (cell.drop text_start_pos).take (text_end_pos - text_start_pos)

/-- top_indent of the cell content within its height. -/
def top_indent (cell : List Str) (style : Style) (height : Nat) : Nat :=
  let height := height - style.padding.top.size
  let content_height := cell.length
  let indent := style.alignment_v.top_ident height content_height
  indent + style.padding.top.size

/-- line: left padding, aligned text, right padding. -/
def line (text : Str) (width : Nat) (style : Style) : Str :=
  repeat_char style.padding.left.fill style.padding.left.size ++
  style.alignment_h.align text (width - style.padding.left.size - style.padding.right.size) ++
  repeat_char style.padding.right.fill style.padding.right.size

/-- line_with_width: like line but aligning against the cell's widest
line. -/
def line_with_width (text : Str) (width width_text : Nat) (style : Style) : Str :=
  repeat_char style.padding.left.fill style.padding.left.size ++
  style.alignment_h.align_with_max_width text
    (width - style.padding.left.size - style.padding.right.size) width_text ++
  repeat_char style.padding.right.fill style.padding.right.size

/-- build_line_cell: one visual line of one cell: top padding fill above
the content, the content line aligned, bottom padding fill below. -/
def build_line_cell (line_index : Nat) (cell0 : List Str) (style : Style)
    (width height : Nat) : Str :=
  let cell := if style.formatting.vertical_trim then skip_empty_lines cell0 else cell0
  let ti := top_indent cell style height
  if line_index < ti then repeat_char style.padding.top.fill width
  else
    let cell_line_index := line_index - ti
    if cell_line_index < cell.length then
      let text0 := cell.getD cell_line_index []
      let text := if style.formatting.horizontal_trim then rust_trim text0 else text0
      if style.formatting.allow_lines_alignement then line text width style
      else
        let max_line_width := ((cell.map fun l =>
          if style.formatting.horizontal_trim then rust_trim l else l).map
            string_width).foldl Nat.max 0
        line_with_width text width max_line_width style
    else repeat_char style.padding.bottom.fill width

/-- build_line: one visual line of one row: left margin, then per column
the connector and the cell line for visible cells (the final connector2
printed after the last column), right margin, newline.  (Rust indexes
the slices; call sites pass lists of the right length and the model
defaults.) -/
def build_line (borders : List BorderLine) (row_styles : List Style)
    (row : List (List Str)) (widths : List Nat) (height count_columns line_index : Nat)
    (margin : Margin) : Str :=
  let left := if 0 < margin.left.size then repeat_char margin.left.fill margin.left.size else []
  let body := (List.range count_columns).foldl (fun acc col =>
    let acc := if is_cell_visible row_styles col then
        acc ++ write_option (borders.getD col default).connector1 ++
          build_line_cell line_index (row.getD col []) (row_styles.getD col default)
            (widths.getD col 0) height
      else acc
    if col + 1 = count_columns then acc ++ write_option (borders.getD col default).connector2
    else acc) []
  let right := if 0 < margin.right.size then repeat_char margin.right.fill margin.right.size
    else []
  left ++ body ++ right ++ ['\n']

/-- build_row_cells: all the height visual lines of one row. -/
def build_row_cells (row : List (List Str)) (row_styles : List Style)
    (widths : List Nat) (height : Nat) (borders : List BorderLine) (margin : Margin) : Str :=
  (List.range height).foldl (fun acc line_index =>
    acc ++ build_line borders row_styles row widths height row.length line_index margin) []

/-- write_or_skip: print width copies of the character, except that the
first limit positions are consumed silently; returns the remaining
limit. -/
def write_or_skip (c : Char) (width limit : Nat) : Str × Nat :=
  if width ≤ limit then ([], limit - width)
  else (repeat_char c (width - limit), 0)

/-- write_with_limit: print at most limit characters of the override
string, returning how many were printed. -/
def write_with_limit (s : Str) (limit : Nat) : Str × Nat :=
  ((s.take limit), (s.take limit).length)

/-- split_line_width: the character width of a split line (content
widths plus the printed connectors). -/
def split_line_width (widths : List Nat) (borders : List BorderLine) : Nat :=
  let content_width := widths.foldl (fun a b => a + b) 0
  let left_border := match borders.head? with
    | some b => if b.connector1.isSome then 1 else 0
    | none => 0
  let other_borders := (borders.filter fun b => b.connector2.isSome).length
  content_width + left_border + other_borders

/-- build_split_line: the horizontal split, printing main characters per
column width and connectors, skipping the first skip_chars positions
(already covered by an override). -/
def build_split_line (widths : List Nat) (borders : List BorderLine)
    (skip_chars : Nat) : Str :=
  let theres_no_border := borders.all fun l => l.main.isNone
  if theres_no_border || widths.isEmpty then []
  else
    let start : Str × Nat := match (borders.getD 0 default).connector1 with
      | some left_border => write_or_skip left_border 1 skip_chars
      | none => ([], skip_chars)
    ((List.range widths.length).foldl (fun acc i =>
      let acc := match (borders.getD i default).main with
        | some m =>
          let r := write_or_skip m (widths.getD i 0) acc.2
          (acc.1 ++ r.1, r.2)
        | none => acc
      match (borders.getD i default).connector2 with
      | some right_border =>
        let r := write_or_skip right_border 1 acc.2
        (acc.1 ++ r.1, r.2)
      | none => acc) start).1

/-- build_split_line_with_override: print the override string first (cut
to the line width), then the split line with that many positions
skipped. -/
def build_split_line_with_override (widths : List Nat) (borders : List BorderLine)
    (override_str : Option Str) : Str :=
  let start : Str × Nat := match override_str with
    | some s =>
      let width := split_line_width widths borders
      write_with_limit s width
    | none => ([], 0)
  start.1 ++ build_split_line widths borders start.2

/-- count_borders: printed connectors of a row line (the first
connector1 plus one per visible column with a connector2). -/
def count_borders (row : List BorderLine) (styles : List Style) : Nat :=
  let left_border := match row.head? with
    | some b => if b.connector1.isSome then 1 else 0
    | none => 0
  let other_borders := ((row.enum.filter fun p => is_cell_visible styles p.1).filter
    fun p => p.2.connector2.isSome).length
  left_border + other_borders

/-- total_width of the rendered table, including margins. -/
def total_width (widths : List (List Nat)) (styles : List (List Style))
    (borders : List (List BorderLine)) (margin : Margin) : Nat :=
  let content_width := match widths.head? with
    | some row => row.foldl (fun a b => a + b) 0
    | none => 0
  let cb := match borders.head? with
    | some row => count_borders row (styles.getD 0 [])
    | none => 0
  content_width + cb + margin.left.size + margin.right.size

/-- normalized_width: distribute each spanned width over its columns
(the row of minimal span decides; Rust min_by keeps the last minimum),
skipping columns already covered. -/
def normalized_width (widths : List (List Nat)) (styles : List (List Style))
    (count_rows count_columns : Nat) : List Nat :=
  let init := List.replicate count_columns 0
  ((List.range count_columns).foldl (fun st col =>
    let v := st.1
    let skip := st.2
    if 0 < skip then (v, skip - 1)
    else
      let cand := (List.range count_rows).filter fun row =>
        0 < (mat_get styles row col default).span
      let min_spanned_row := cand.foldl (fun acc row =>
        match acc with
        | none => some row
        | some r =>
          if (mat_get styles row col default).span ≤ (mat_get styles r col default).span
          then some row else some r) none
      match min_spanned_row with
      | some row =>
        let span := (mat_get styles row col default).span
        let width := mat_get widths row col 0 - (span - 1)
        let v := (List.range width).foldl (fun v2 k =>
          let target := col + k % span
          v2.set target (v2.getD target 0 + 1)) v
        (v, skip + (span - 1))
      | none => (v, skip)) (init, 0)).1

/-- fix_invisible_cell: zero the span of every invisible cell of a row
(sequentially, reading the partially fixed row as Rust does). -/
def fix_invisible_cell (styles : List Style) : List Style :=
  (List.range styles.length).foldl (fun st col =>
    if ! is_cell_visible st col then
      st.set col { st.getD col default with span := 0 }
    else st) styles

/-- fix_styles: fix every row. -/
def fix_styles (styles : List (List Style)) : List (List Style) :=
  styles.map fix_invisible_cell

/-- Swap two entries of a list (Vec::swap). -/
def list_swap (l : List α) (i j : Nat) (d : α) : List α :=
  (l.set i (l.getD j d)).set j (l.getD i d)

/-- fix_first_column_span: when the first cell has span 0, move the
first spanning cell to the front, widening its span over the gap, and
swap the cell contents accordingly. -/
def fix_first_column_span (styles : List Style) (cells : List (List Str)) :
    List Style × List (List Str) :=
  if (styles.getD 0 default).span = 0 then
    match (List.range' 1 (styles.length - 1)).find? (fun i =>
        0 < (styles.getD i default).span) with
    | some i =>
      let styles := styles.set i { styles.getD i default with
        span := (styles.getD i default).span + i }
      (list_swap styles 0 i default, list_swap cells 0 i [])
    | none => (styles, cells)
  else (styles, cells)

/-- fix_zero_column_span: give an uncovered zero-span cell a covering
predecessor by widening the previous spanning cell. -/
def fix_zero_column_span (styles : List Style) : List Style :=
  (List.range styles.length).foldl (fun st i =>
    if 0 < (st.getD i default).span then st
    else if is_cell_overriden (st.take i) then st
    else
      match ((List.range i).reverse.find? fun k => 0 < (st.getD k default).span) with
      | some pos => st.set pos { st.getD pos default with span := (i - pos) + 1 }
      | none => st) styles

/-- fix_zero_spans of one row. -/
def fix_zero_spans (styles : List Style) (cells : List (List Str)) :
    List Style × List (List Str) :=
  if styles.isEmpty then (styles, cells)
  else
    let p := fix_first_column_span styles cells
    (fix_zero_column_span p.1, p.2)

/-- fix_spans: fix every row of the style and content matrices. -/
def fix_spans (styles : List (List Style)) (cells : List (List (List Str)))
    : List (List Style) × List (List (List Str)) :=
  let pairs := (List.range styles.length).map fun row =>
    fix_zero_spans (styles.getD row []) (cells.getD row [])
  (pairs.map Prod.fst, pairs.map Prod.snd)

/-- Grid::collect_cells: per cell, the text with tabs replaced, split
into lines. -/
def Grid.collect_cells (g : Grid) (count_rows count_columns : Nat) :
    List (List (List Str)) :=
  (List.range count_rows).map fun row =>
    (List.range count_columns).map fun col =>
      let content := g.cells row col
      let style := g.styleD (Entity.Cell row col)
      rust_lines (replace_tab content style.formatting.tab_width)

/-- Grid::collect_styles: the resolved style of every cell, then
fix_styles. -/
def Grid.collect_styles (g : Grid) (count_rows count_columns : Nat) : List (List Style) :=
  fix_styles ((List.range count_rows).map fun row =>
    (List.range count_columns).map fun col => g.styleD (Entity.Cell row col))

/-- Grid::get_split_line; none models the panicking unwrap (unreachable
at the renderer's call sites, whose indices are within bounds). -/
def Grid.get_split_line (g : Grid) (index : Nat) : Option (List BorderLine) :=
  match g.borders.get_row index with
  | .ok l => some l
  | .error _ => none

def Grid.get_inner_split_line (g : Grid) (index : Nat) : Option (List BorderLine) :=
  match g.borders.get_inner_row index with
  | .ok l => some l
  | .error _ => none

/-- build_split_line_: one full horizontal boundary line of the output
(margins, override, split), or nothing when there is no border to
print. -/
def Grid.build_split_line_ (g : Grid) (widths : List Nat) (row : Nat) : Option Str :=
  (g.get_split_line row).bind fun borders =>
  let override_str := g.override_split_lines row
  let theres_no_border := borders.all fun l => l.main.isNone
  if theres_no_border || widths.isEmpty then some []
  else
    let left := if 0 < g.margin.left.size then
        repeat_char g.margin.left.fill g.margin.left.size
      else []
    let right := if 0 < g.margin.right.size then
        repeat_char g.margin.right.fill g.margin.right.size
      else []
    some (left ++ build_split_line_with_override widths borders override_str ++
      right ++ ['\n'])

/-- build_row: the split line above the first row, the row's visual
lines, the split line below. -/
def Grid.build_row (g : Grid) (cell_contents : List (List Str))
    (cell_styles : List Style) (cell_widths : List Nat) (normal_widths : List Nat)
    (height row : Nat) : Option Str :=
  (if row = 0 then g.build_split_line_ normal_widths row else some []).bind fun first =>
  (g.get_inner_split_line row).bind fun inner_border =>
  let body := build_row_cells cell_contents cell_styles cell_widths height inner_border
    g.margin
  (g.build_split_line_ normal_widths (row + 1)).bind fun last =>
  some (first ++ body ++ last)

/-- print_grid: top margin lines, every row, bottom margin lines. -/
def Grid.print_grid (g : Grid) (count_rows : Nat) (cells : List (List (List Str)))
    (styles : List (List Style)) (widths : List (List Nat)) (normal_widths : List Nat)
    (row_heights : List Nat) (total_width : Nat) : Option Str :=
  let top := (List.range g.margin.top.size).foldl (fun acc _ =>
    acc ++ repeat_char g.margin.top.fill total_width ++ ['\n']) []
  ((List.range count_rows).foldlM (fun acc row =>
    (g.build_row (cells.getD row []) (styles.getD row []) (widths.getD row [])
      normal_widths (row_heights.getD row 0) row).bind fun r =>
    some (acc ++ r)) []).bind fun body =>
  let bottom := (List.range g.margin.bottom.size).foldl (fun acc _ =>
    acc ++ repeat_char g.margin.bottom.fill total_width ++ ['\n']) []
  some (top ++ body ++ bottom)

/-- impl Display for Grid: the full rendering pipeline; an empty grid
renders as the empty string. -/
def Grid.render (g : Grid) : Option Str :=
  let count_rows := g.count_rows
  let count_columns := g.count_columns
  if count_rows = 0 ∨ count_columns = 0 then some []
  else
    let cells0 := g.collect_cells count_rows count_columns
    let styles0 := g.collect_styles count_rows count_columns
    let p := fix_spans styles0 cells0
    let styles := p.1
    let cells := p.2
    ((List.range count_rows).mapM (fun row => g.get_inner_split_line row)).bind fun borders =>
    let row_heights := rows_height cells styles count_rows count_columns
    let widths := columns_width cells styles borders count_rows count_columns
    let normal_widths := normalized_width widths styles count_rows count_columns
    let tw := total_width widths styles borders g.margin
    g.print_grid count_rows cells styles widths normal_widths row_heights tw



/-! ## Claim C5: the 2x2 example render -/

/-- The example grid of the claim: a 2x2 grid with the default ASCII
cell borders, no padding, default (left/top) alignment, and the four
texts. -/
def exC5_grid : Option Grid :=
  ((Grid.new 2 2).set_cell_borders DEFAULT_CELL_STYLE).bind fun g =>
  (g.set (Entity.Cell 0 0) (Settings.new.with_text "0-0".toList)).bind fun g =>
  (g.set (Entity.Cell 0 1) (Settings.new.with_text "0-1".toList)).bind fun g =>
  (g.set (Entity.Cell 1 0) (Settings.new.with_text "1-0".toList)).bind fun g =>
  (g.set (Entity.Cell 1 1) (Settings.new.with_text "1-1".toList)).bind fun g =>
  some g

/-- C5: building the example grid succeeds and rendering it produces
exactly the claimed string. -/
theorem c5_example_render :
    exC5_grid.bind Grid.render =
      some "+---+---+\n|0-0|0-1|\n+---+---+\n|1-0|1-1|\n+---+---+\n".toList := by
  decide


/-! ## Claim C9: row heights -/

theorem foldl_max_acc {α : Type} (g : α → Nat) (l : List α) :
    ∀ a : Nat, l.foldl (fun h x => Nat.max h (g x)) a =
      Nat.max a (l.foldl (fun h x => Nat.max h (g x)) 0) := by
  induction l with
  | nil =>
    intro a
    simp
  | cons x xs ih =>
    intro a
    rw [List.foldl_cons, List.foldl_cons, ih (Nat.max a (g x)), ih (Nat.max 0 (g x))]
    generalize List.foldl (fun h x => Nat.max h (g x)) 0 xs = F
    generalize g x = y
    have hzy : Nat.max 0 y = y := by simp
    rw [hzy]
    exact Nat.max_assoc a y F

theorem newline_mem_build_row_cells (row : List (List Str)) (row_styles : List Style)
    (widths : List Nat) (borders : List BorderLine) (margin : Margin) {h : Nat}
    (hh : 1 ≤ h) : '\n' ∈ build_row_cells row row_styles widths h borders margin := by
  obtain ⟨k, rfl⟩ : ∃ k, h = k + 1 := ⟨h - 1, by omega⟩
  unfold build_row_cells
  rw [List.range_succ, List.foldl_append, List.foldl_cons, List.foldl_nil]
  apply List.mem_append_right
  simp [build_line]

/-- C9: the resolved height of every row is the maximum of 1 and, over
the row's cells, the content line count plus the two vertical padding
sizes; it is at least 1; and printing a row's cells at that height
always emits at least one line of output (a newline is printed). -/
theorem c9_row_height (cells : List (List (List Str))) (styles : List (List Style))
    (count_rows count_columns : Nat) (r : Nat) (hr : r < count_rows) :
    (rows_height cells styles count_rows count_columns).getD r 0 =
      Nat.max 1 (((List.range count_columns).map fun c =>
        (mat_get cells r c []).length + (mat_get styles r c default).padding.top.size +
          (mat_get styles r c default).padding.bottom.size).foldl Nat.max 0) ∧
    1 ≤ (rows_height cells styles count_rows count_columns).getD r 0 ∧
    (∀ (row : List (List Str)) (row_styles : List Style) (widths : List Nat)
      (borders : List BorderLine) (margin : Margin),
      '\n' ∈ build_row_cells row row_styles widths
        ((rows_height cells styles count_rows count_columns).getD r 0) borders margin) := by
  have hrow : (rows_height cells styles count_rows count_columns).getD r 0 =
      (List.range count_columns).foldl (fun h column_index =>
        Nat.max h (cell_height (mat_get cells r column_index [])
          (mat_get styles r column_index default))) 1 := by
    unfold rows_height
    rw [List.getD_eq_getElem?_getD, List.getElem?_map, List.getElem?_range hr]
    rfl
  have h1 : (rows_height cells styles count_rows count_columns).getD r 0 =
      Nat.max 1 (((List.range count_columns).map fun c =>
        (mat_get cells r c []).length + (mat_get styles r c default).padding.top.size +
          (mat_get styles r c default).padding.bottom.size).foldl Nat.max 0) := by
    rw [hrow, List.foldl_map]
    exact foldl_max_acc _ _ 1
  have hpos : 1 ≤ (rows_height cells styles count_rows count_columns).getD r 0 := by
    rw [h1]
    exact Nat.le_max_left _ _
  refine ⟨h1, hpos, ?_⟩
  intro row row_styles widths borders margin
  exact newline_mem_build_row_cells row row_styles widths borders margin hpos

/-- C9 witness: a 1x1 grid whose only cell is empty still gets row
height 1. -/
theorem c9_row_height_witness :
    0 < 1 ∧ 1 ≤ (rows_height [[[]]] [[Style.default]] 1 1).getD 0 0 :=
  ⟨by decide, (c9_row_height [[[]]] [[Style.default]] 1 1 0 (by decide)).2.1⟩


/-! ## Claim C2: the extract-then-render round trip -/

/-- A margin with one left column of fill character m. -/
def exC2_margin : Margin := { Margin.default with left := { fill := 'm', size := 1 } }

/-- A 1x1 grid with text a and the nonzero left margin. -/
def exC2_src : Grid :=
  (((Grid.new 1 1).set (Entity.Cell 0 0)
    (Settings.new.with_text "a".toList)).getD (Grid.new 1 1)).set_margin exC2_margin

/-- C2 counterexample: the original renders with its margin, the
full-range extraction loses the margin and renders differently. -/
theorem c2_full_extract_render_counterexample :
    exC2_src.render = some "ma\n".toList ∧
    (exC2_src.extract_full).bind Grid.render = some "a\n".toList := by
  constructor
  · decide
  · decide

/-- The bordered 2x2 example grid, on which the round trip does hold. -/
def exC2_g : Grid := exC5_grid.getD (Grid.new 2 2)

set_option maxHeartbeats 4000000 in
/-- C2 (amended): full-range extraction resets the margin and the
split-line overrides (and each cell's formatting, part of
extract_style) while carrying the texts and the remaining style fields
renumbered in place, so rendering commutes only for grids not relying
on those; on the bordered 2x2 example the round-trip output is
identical. -/
theorem c2_extract_render_roundtrip :
    (∀ g g' : Grid, g.extract_full = some g' →
      g'.margin = Margin.default ∧
      (∀ r, g'.override_split_lines r = none) ∧
      g'.size = (g.count_rows, g.count_columns) ∧
      (∀ i j, i < g.count_rows → j < g.count_columns → g'.cells i j = g.cells i j) ∧
      (∀ i j, i < g.count_rows → j < g.count_columns →
        g'.styles (Entity.Cell i j) = some (extract_style (g.styleD (Entity.Cell i j))))) ∧
    (exC2_g.extract_full).bind Grid.render = exC2_g.render := by
  constructor
  · intro g g' h
    obtain ⟨_, hsz, hm, ho, hc, hsty⟩ :=
      Grid.extract_main g g' 0 g.count_rows 0 g.count_columns h
    refine ⟨hm, ho, ?_, ?_, ?_⟩
    · rw [hsz]
      simp
    · intro i j hi hj
      rw [hc i j, if_pos ⟨by omega, by omega⟩]
      simp
    · intro i j hi hj
      rw [hsty i j, if_pos ⟨by omega, by omega⟩]
      simp
  · decide

/-- The extraction of the 2x2 example. -/
def exC2_gx : Grid := (exC2_g.extract_full).getD exC2_g

/-- C2 witness: the amended theorem applied to the concrete 2x2
example grid. -/
theorem c2_extract_render_roundtrip_witness :
    exC2_g.extract_full = some exC2_gx ∧ exC2_gx.margin = Margin.default :=
  ⟨rfl, (c2_extract_render_roundtrip.1 exC2_g exC2_gx rfl).1⟩

end Papergrid
